import Mathlib

set_option autoImplicit false
set_option maxHeartbeats 1000000

/-!
Shallow embedding of the rtc-engine media server (C++ sources) used to check
the natural-language specification against the code.  Machine integers are
modelled as `Nat`/`Int` with an explicit `% 2 ^ 64` where a C++ counter can
wrap; `unordered_map`/`map` containers are modelled as association lists;
callbacks are modelled as lists of the invocations the code would make when a
callback is installed.  Floating-point volume factors are modelled in exact
rational arithmetic with the C++ float-to-int conversion's truncation toward
zero.
-/

namespace RtcSpec

/-- Association-list lookup, mirroring `unordered_map::find` /
`map::find` (key present at most once in all reachable states). -/
def afind {α β : Type} [DecidableEq α] (k : α) : List (α × β) → Option β
  | [] => none
  | (k', v) :: rest => if k' = k then some v else afind k rest

/-- Association-list insert-or-assign, mirroring `m[k] = v` on a C++ map. -/
def aset {α β : Type} [DecidableEq α] (k : α) (v : β) : List (α × β) → List (α × β)
  | [] => [(k, v)]
  | (k', v') :: rest => if k' = k then (k, v) :: rest else (k', v') :: aset k v rest

/-- Association-list update through `m[k]` as an lvalue: the entry is created
with default `d` when absent (as `unordered_map::operator[]` does), then
mutated by `f`. -/
def aupd {α β : Type} [DecidableEq α] (k : α) (d : β) (f : β → β) :
    List (α × β) → List (α × β)
  | [] => [(k, f d)]
  | (k', v') :: rest => if k' = k then (k, f v') :: rest else (k', v') :: aupd k d f rest

/-- Reduction of an unsigned 64-bit counter value (uint64_t / size_t). -/
def u64 (n : ℕ) : ℕ := n % 2 ^ 64

/-! ## RTP forwarder (src/server/src/rtp_forwarder.cpp) -/

/-- RtpStreamInfo (rtp_forwarder.h).  The descriptive media-kind and
codec-tag fields are never consulted by the modelled operations and are
omitted. -/
structure RtpStreamInfo where
  ssrc : ℕ
  payload_type : ℕ
  simulcast_layer : ℤ
  deriving DecidableEq

/-- ForwardingRule (rtp_forwarder.h).  The destination socket address is an
opaque (ip, port) pair. -/
structure ForwardingRule where
  subscriber_id : String
  destination : String × ℕ
  rewritten_ssrc : ℕ
  preferred_simulcast_layer : ℤ
  is_active : Bool
  deriving DecidableEq

/-- PublisherStream (rtp_forwarder.cpp). -/
structure PublisherStream where
  publisher_id : String
  stream_id : String
  info : RtpStreamInfo
  subscribers : List ForwardingRule
  deriving DecidableEq

/-- ForwarderStats (rtp_forwarder.h); all counters are 64-bit unsigned. -/
structure ForwarderStats where
  packets_received : ℕ := 0
  packets_forwarded : ℕ := 0
  bytes_received : ℕ := 0
  bytes_forwarded : ℕ := 0
  packets_dropped : ℕ := 0
  active_publishers : ℕ := 0
  active_subscribers : ℕ := 0
  deriving DecidableEq

/-- One invocation of the forward callback: (subscriber, bytes, destination). -/
abbrev Emission : Type := String × List ℕ × (String × ℕ)

/-- RtpForwarder::Impl state.  `callback_set` records whether a forward
callback is installed. -/
structure ForwarderState where
  callback_set : Bool
  ssrc_to_stream : List (ℕ × PublisherStream)
  publisher_ssrcs : List (String × List ℕ)
  stats : ForwarderStats
  deriving DecidableEq

/-- Fresh forwarder (RtpForwarder constructor), with or without a callback. -/
def ForwarderState.init (cb : Bool) : ForwarderState :=
  { callback_set := cb, ssrc_to_stream := [], publisher_ssrcs := [], stats := {} }

/-- Simulcast layer skip test (rtp_forwarder.cpp lines 57-61). -/
def layerSkip (rule : ForwardingRule) (info : RtpStreamInfo) : Bool :=
  decide (0 ≤ rule.preferred_simulcast_layer ∧ 0 ≤ info.simulcast_layer ∧
    info.simulcast_layer ≠ rule.preferred_simulcast_layer)

/-- SSRC rewrite (rtp_forwarder.cpp lines 68-75): the packet is copied and,
when the copy has at least 12 bytes, bytes 8..11 are overwritten with the
rewritten SSRC in network (big-endian) byte order. -/
def rewriteSsrcBytes (ssrc : ℕ) (packet : List ℕ) : List ℕ :=
  if 12 ≤ packet.length then
    (((packet.set 8 (ssrc / 2 ^ 24 % 256)).set 9 (ssrc / 2 ^ 16 % 256)).set 10
        (ssrc / 2 ^ 8 % 256)).set 11 (ssrc % 256)
  else packet

/-- Bytes handed to the sink for one rule (rtp_forwarder.cpp lines 65-81):
rewrite when `rewritten_ssrc` is non-zero and differs from the stream SSRC,
otherwise forward the original buffer unchanged (zero-copy). -/
def emissionBytes (rule : ForwardingRule) (info : RtpStreamInfo) (packet : List ℕ) : List ℕ :=
  if rule.rewritten_ssrc ≠ 0 ∧ rule.rewritten_ssrc ≠ info.ssrc then
    rewriteSsrcBytes rule.rewritten_ssrc packet
  else packet

/-- Loop body of RtpForwarder::Impl::forward_packet (rtp_forwarder.cpp lines
52-86): one forwarding rule is skipped when inactive or layer-mismatched;
otherwise, when a callback is installed, the emission is recorded and the
per-emission counters are bumped. -/
def forwardStep (cbSet : Bool) (info : RtpStreamInfo) (packet : List ℕ)
    (acc : List Emission × ForwarderStats) (rule : ForwardingRule) :
    List Emission × ForwarderStats :=
  if rule.is_active = false then acc
  else if layerSkip rule info then acc
  else if cbSet then
    (acc.1 ++ [(rule.subscriber_id, emissionBytes rule info packet, rule.destination)],
     { acc.2 with
        packets_forwarded := u64 (acc.2.packets_forwarded + 1)
        bytes_forwarded := u64 (acc.2.bytes_forwarded + packet.length) })
  else acc

/-- RtpForwarder::Impl::forward_packet (rtp_forwarder.cpp lines 50-88):
returns the callback invocations in rule order together with the updated
stats. -/
def forward_packet (cbSet : Bool) (stream : PublisherStream) (packet : List ℕ)
    (stats : ForwarderStats) : List Emission × ForwarderStats :=
  stream.subscribers.foldl (forwardStep cbSet stream.info packet) ([], stats)

/-- RtpForwarder::add_publisher (rtp_forwarder.cpp lines 101-114): the new
stream is assigned into the SSRC table (replacing any entry with the same
SSRC), the SSRC is appended to the publisher's list, and the publisher count
is refreshed. -/
def add_publisher (st : ForwarderState) (publisher_id stream_id : String)
    (info : RtpStreamInfo) : ForwarderState :=
  let stream : PublisherStream :=
    { publisher_id := publisher_id, stream_id := stream_id, info := info, subscribers := [] }
  let pubs := aupd publisher_id [] (fun l => l ++ [info.ssrc]) st.publisher_ssrcs
  { st with
      ssrc_to_stream := aset info.ssrc stream st.ssrc_to_stream
      publisher_ssrcs := pubs
      stats := { st.stats with active_publishers := u64 pubs.length } }

/-- RtpForwarder::add_subscription (rtp_forwarder.cpp lines 147-168). -/
def add_subscription (st : ForwarderState) (publisher_id subscriber_id : String)
    (rule : ForwardingRule) : ForwarderState :=
  let rule := { rule with subscriber_id := subscriber_id }
  match afind publisher_id st.publisher_ssrcs with
  | none => st
  | some ssrcs =>
    let m := ssrcs.foldl
      (fun m ssrc =>
        match afind ssrc m with
        | none => m
        | some stream =>
            aset ssrc { stream with subscribers := stream.subscribers ++ [rule] } m)
      st.ssrc_to_stream
    { st with
        ssrc_to_stream := m
        stats := { st.stats with
                    active_subscribers := u64 (st.stats.active_subscribers + 1) } }

/-- RtpForwarder::remove_subscription (rtp_forwarder.cpp lines 170-191): when
the publisher is unknown the function returns early; otherwise matching rules
are erased from each of the publisher's streams and `active_subscribers` is
decremented unconditionally (size_t arithmetic). -/
def remove_subscription (st : ForwarderState) (publisher_id subscriber_id : String) :
    ForwarderState :=
  match afind publisher_id st.publisher_ssrcs with
  | none => st
  | some ssrcs =>
    let m := ssrcs.foldl
      (fun m ssrc =>
        match afind ssrc m with
        | none => m
        | some stream =>
            aset ssrc
              { stream with
                  subscribers :=
                    stream.subscribers.filter (fun r => ¬ r.subscriber_id = subscriber_id) } m)
      st.ssrc_to_stream
    { st with
        ssrc_to_stream := m
        stats := { st.stats with
                    active_subscribers := u64 (st.stats.active_subscribers + 2 ^ 64 - 1) } }

/-- RtpForwarder::on_rtp_packet (rtp_forwarder.cpp lines 217-234): receive
counters are bumped, then the packet is forwarded when the SSRC is known and
counted as dropped otherwise.  The emissions made are returned alongside the
new state. -/
def on_rtp_packet (st : ForwarderState) (ssrc : ℕ) (packet : List ℕ) :
    ForwarderState × List Emission :=
  let stats1 := { st.stats with
                    packets_received := u64 (st.stats.packets_received + 1)
                    bytes_received := u64 (st.stats.bytes_received + packet.length) }
  match afind ssrc st.ssrc_to_stream with
  | some stream =>
      let r := forward_packet st.callback_set stream packet stats1
      ({ st with stats := r.2 }, r.1)
  | none =>
      ({ st with stats := { stats1 with packets_dropped := u64 (stats1.packets_dropped + 1) } },
       [])

/-! ## Audio mixer (src/server/src/audio_mixer.cpp) -/

/-- Truncation toward zero of a rational value: the effect of C++'s
float-to-integer conversion on the scaled sample.  The scaling itself is
modelled in exact rational arithmetic (the C++ float path computes a
rounding of this product). -/
def truncZ (q : ℚ) : ℤ := if 0 ≤ q then ⌊q⌋ else ⌈q⌉

/-- MixingParams (audio_mixer.h).  The pan field feeds only the stereo
mixing path, which goes through floating square roots and is not embedded;
the mono path (config.channels == 1) is embedded below. -/
structure MixingParams where
  volume : ℚ := 1
  pan : ℚ := 0
  muted : Bool := false
  deriving DecidableEq

/-- AudioSource (audio_mixer.cpp).  The per-participant PCM buffer is a total
function on sample indices; the C++ vector always holds `frame_size` samples
(resized at add_source, push_audio copies at most that many).  The float RMS
level field feeds only the active-speaker logic, which no modelled claim
consults, and is omitted. -/
structure AudioSource where
  id : String
  params : MixingParams
  buffer : ℕ → ℤ
  last_timestamp : ℕ := 0
  has_data : Bool := false

/-- AudioMixer::Impl state for the mixing tick: the source map (keys unique)
in iteration order, and the frame size. -/
structure MixerState where
  frame_size : ℕ
  sources : List AudioSource

namespace AudioMixer

/-- Scaled contribution of one source sample to the 32-bit mix accumulator
(audio_mixer.cpp line 216): the int16 sample times the float volume,
converted back to an integer (truncation toward zero). -/
def scaledSample (s : AudioSource) (i : ℕ) : ℤ :=
  truncZ ((s.buffer i : ℚ) * s.params.volume)

/-- Mono mix accumulator for one recipient at one sample index
(audio_mixer.cpp lines 202-217): every source other than the recipient that
has data and is not muted is accumulated, in source order. -/
def mixAccum (sources : List AudioSource) (recipient : String) (i : ℕ) : ℤ :=
  sources.foldl
    (fun acc s =>
      if s.id = recipient then acc
      else if s.has_data = false then acc
      else if s.params.muted then acc
      else acc + scaledSample s i)
    0

/-- Int16 saturation (audio_mixer.cpp lines 237-242): clamp to
[-32768, 32767]. -/
def sat16 (v : ℤ) : ℤ := max (-32768) (min v 32767)

/-- Samples delivered to one recipient on a tick (mono path). -/
def mixOutput (st : MixerState) (recipient : String) : List ℤ :=
  (List.range st.frame_size).map (fun i => sat16 (mixAccum st.sources recipient i))

/-- AudioMixer::process (audio_mixer.cpp lines 190-265), mono configuration.
Returns the mixed-audio callback invocations (recipient, samples, timestamp)
made when a callback is installed, in source order, together with the
post-tick state (all `has_data` flags cleared).  The delivered timestamp is
the recipient's own `last_timestamp` (the source lookup at lines 247-252
always finds the recipient).  The active-speaker update (lines 88-113)
touches only state no modelled claim consults and is omitted. -/
def process (st : MixerState) : List (String × List ℤ × ℕ) × MixerState :=
  if st.sources.isEmpty then ([], st)
  else
    (st.sources.map (fun r => (r.id, mixOutput st r.id, r.last_timestamp)),
     { st with sources := st.sources.map (fun s => { s with has_data := false }) })

end AudioMixer

/-! ## Subscription manager (src/unnamed/part_002, subscription_manager.cpp) -/

/-- SimulcastLayerInfo (subscription_manager.h).  `bitrate_kbps` is a C++
int; the embedding covers the UB-free range where it is non-negative and
`bitrate_kbps * 1000` does not overflow int. -/
structure SimulcastLayerInfo where
  layer_index : ℤ := 0
  width : ℤ := 0
  height : ℤ := 0
  fps : ℤ := 0
  bitrate_kbps : ℕ := 0
  is_active : Bool := false
  deriving DecidableEq

/-- Subscription (subscription_manager.h). -/
structure Subscription where
  publisher_id : String
  stream_id : String
  target_layer : ℤ := -1
  current_layer : ℤ := 0
  is_paused : Bool := false
  bytes_received : ℕ := 0
  deriving DecidableEq

/-- SubscriptionKey (subscriber, publisher, stream). -/
abbrev SubscriptionKey : Type := String × String × String

/-- StreamKey (publisher, stream). -/
abbrev StreamKey : Type := String × String

/-- BandwidthInfo (subscription_manager.h); the float loss and RTT fields are
carried as rationals (select_best_layer reads only `estimated_bps`). -/
structure BandwidthInfo where
  estimated_bps : ℕ := 0
  packet_loss : ℚ := 0
  rtt_ms : ℚ := 0
  deriving DecidableEq

/-- SubscriptionManager::Impl state. -/
structure SubMgrState where
  subscriptions : List (SubscriptionKey × Subscription)
  stream_layers : List (StreamKey × List SimulcastLayerInfo)
  bandwidth_info : List (String × BandwidthInfo)
  deriving DecidableEq

namespace SubscriptionManager

/-- Empty manager. -/
def init : SubMgrState :=
  { subscriptions := [], stream_layers := [], bandwidth_info := [] }

/-- SubscriptionManager::Impl::select_best_layer (part_002 lines 76-103):
default 2 without bandwidth info, 0 without a layer table, else the
`layer_index` of the last active layer in the table whose
`bitrate_kbps * 1000` fits the estimate, starting from 0. -/
def select_best_layer (st : SubMgrState) (subscriber_id : String) (key : StreamKey) : ℤ :=
  match afind subscriber_id st.bandwidth_info with
  | none => 2
  | some bw =>
    match afind key st.stream_layers with
    | none => 0
    | some layers =>
        layers.foldl
          (fun best l =>
            if l.is_active = true ∧ l.bitrate_kbps * 1000 ≤ bw.estimated_bps then l.layer_index
            else best)
          0

/-- SubscriptionManager::subscribe (part_002 lines 124-140). -/
def subscribe (st : SubMgrState) (subscriber_id publisher_id stream_id : String)
    (target_layer : ℤ) : SubMgrState :=
  let sub : Subscription :=
    { publisher_id := publisher_id, stream_id := stream_id
      target_layer := target_layer
      current_layer := if 0 ≤ target_layer then target_layer else 2
      is_paused := false }
  { st with
      subscriptions := aset (subscriber_id, publisher_id, stream_id) sub st.subscriptions }

/-- SubscriptionManager::set_available_layers (part_002 lines 116-122). -/
def set_available_layers (st : SubMgrState) (publisher_id stream_id : String)
    (layers : List SimulcastLayerInfo) : SubMgrState :=
  { st with stream_layers := aset (publisher_id, stream_id) layers st.stream_layers }

/-- SubscriptionManager::update_bandwidth (part_002 lines 177-182). -/
def update_bandwidth (st : SubMgrState) (subscriber_id : String) (info : BandwidthInfo) :
    SubMgrState :=
  { st with bandwidth_info := aset subscriber_id info st.bandwidth_info }

/-- SubscriptionManager::process (part_002 lines 184-208): every unpaused
automatic subscription has its `current_layer` set to select_best_layer's
result; on a change the layer-switch invocation
(subscriber, publisher, old, new) is recorded.  select_best_layer reads only
the layer tables and bandwidth info, which the loop does not modify, so it is
evaluated against the pre-call state exactly as in the source.  This is the
loop body of SubscriptionManager::process (part_002 lines 188-207). -/
def processStep (st : SubMgrState)
    (acc : List (SubscriptionKey × Subscription) × List (String × String × ℤ × ℤ))
    (e : SubscriptionKey × Subscription) :
    List (SubscriptionKey × Subscription) × List (String × String × ℤ × ℤ) :=
  if e.2.is_paused = true ∨ 0 ≤ e.2.target_layer then (acc.1 ++ [e], acc.2)
  else
    let best := select_best_layer st e.1.1 (e.1.2.1, e.1.2.2)
    if best ≠ e.2.current_layer then
      (acc.1 ++ [(e.1, { e.2 with current_layer := best })],
       acc.2 ++ [(e.1.1, e.1.2.1, e.2.current_layer, best)])
    else (acc.1 ++ [e], acc.2)

/-- SubscriptionManager::process main loop (part_002 lines 188-207). -/
def process (st : SubMgrState) : SubMgrState × List (String × String × ℤ × ℤ) :=
  let r := st.subscriptions.foldl (processStep st) ([], [])
  ({ st with subscriptions := r.1 }, r.2)

/-- SubscriptionManager::get_current_layer (part_002 lines 210-223). -/
def get_current_layer (st : SubMgrState) (subscriber_id publisher_id : String) : ℤ :=
  match st.subscriptions.find?
      (fun e => decide (e.1.1 = subscriber_id ∧ e.1.2.1 = publisher_id)) with
  | some e => e.2.current_layer
  | none => -1

end SubscriptionManager

/-! ## Video frame buffer (src/unnamed/part_013, frame_buffer.cpp)

The embedding follows the single-timestamp slice of FrameBuffer: all modelled
inserts target one `rtp_timestamp`, so the `timestamp -> FrameAssembler` map
holds at most the one assembler modelled here.  The `received_sequences` set
and `highest_sequence` counter feed only get_nack_list, which no claim
consults, and are omitted.  Time is an explicit millisecond parameter. -/

/-- Signed 16-bit wrap comparison: `int16_t(a - b) < 0` for uint16 inputs. -/
def seqLt (a b : ℕ) : Bool :=
  decide (32768 ≤ (a % 65536 + 65536 - b % 65536) % 65536)

/-- FrameAssembler (part_013 lines 22-31): packets is the
`map<uint16_t, vector<uint8_t>>` as an association list. -/
structure FrameAssembler where
  timestamp : ℕ := 0
  packets : List (ℕ × List ℕ) := []
  first_sequence : ℕ := 0
  last_sequence : ℕ := 0
  has_first : Bool := false
  has_last : Bool := false
  is_keyframe : Bool := false
  first_arrival : ℕ := 0
  deriving DecidableEq

/-- BufferedFrame (frame_buffer.h). -/
structure BufferedFrame where
  rtp_timestamp : ℕ
  sequence_start : ℕ
  sequence_end : ℕ
  data : List ℕ
  is_keyframe : Bool
  arrival_time : ℕ
  is_complete : Bool
  deriving DecidableEq

namespace FrameAssembler

/-- Gap scan of FrameAssembler::is_complete (part_013 lines 38-44):
`for (uint16_t seq = first; seq != last + 1; ++seq)`.  The uint16 counter
wraps, but the exit comparison happens after C++ integral promotion to int,
so the bound `last + 1` is NOT reduced modulo 2^16: for
`last_sequence = 65535` the bound is 65536, which the counter never reaches,
and the loop can only leave through a missing packet — or not at all when
every 16-bit sequence is stored, the one input on which the source fails to
terminate.  The fuel argument, 65536 at the top-level call, covers a full
lap; the exhausted-fuel arm, reached exactly in that non-terminating case,
renders the divergent scan as `false` (no frame reported complete). -/
def gapScan (packets : List (ℕ × List ℕ)) (last : ℕ) : ℕ → ℕ → Bool
  | _, 0 => false
  | seq, fuel + 1 =>
    if seq = last + 1 then true
    else if (afind seq packets).isSome = false then false
    else gapScan packets last ((seq + 1) % 65536) fuel

/-- FrameAssembler::is_complete (part_013 lines 33-46). -/
def is_complete (a : FrameAssembler) : Bool :=
  if a.has_first = false ∨ a.has_last = false then false
  else gapScan a.packets a.last_sequence a.first_sequence 65536

/-- Concatenation loop of FrameAssembler::assemble (part_013 lines 59-67):
`for (uint16_t seq = first;; ++seq) { append if present; break when
seq == last; }`.  Fuel as in gapScan. -/
def concatScan (packets : List (ℕ × List ℕ)) (last : ℕ) : ℕ → ℕ → List ℕ
  | _, 0 => []
  | seq, fuel + 1 =>
    ((afind seq packets).getD []) ++
      (if seq = last then [] else concatScan packets last ((seq + 1) % 65536) fuel)

/-- FrameAssembler::assemble (part_013 lines 48-70). -/
def assemble (a : FrameAssembler) : BufferedFrame :=
  { rtp_timestamp := a.timestamp
    sequence_start := a.first_sequence
    sequence_end := a.last_sequence
    data := concatScan a.packets a.last_sequence a.first_sequence 65536
    is_keyframe := a.is_keyframe
    arrival_time := a.first_arrival
    is_complete := true }

end FrameAssembler

/-- FrameBufferConfig (frame_buffer.h), delays in milliseconds. -/
structure FrameBufferConfig where
  target_delay : ℕ
  max_delay : ℕ
  wait_for_keyframe : Bool
  deriving DecidableEq

/-- FrameBuffer::Impl state, single-timestamp slice. -/
structure FrameBufferS where
  config : FrameBufferConfig
  assembler : Option FrameAssembler := none
  complete_frames : List BufferedFrame := []
  has_keyframe : Bool := false
  frames_buffered : ℕ := 0
  frames_dropped : ℕ := 0
  frames_decoded : ℕ := 0
  deriving DecidableEq

namespace FrameBuffer

/-- Fresh buffer. -/
def init (cfg : FrameBufferConfig) : FrameBufferS := { config := cfg }

/-- Drop loop over the complete queue in cleanup_old_frames (part_013 lines
93-106): pop the front while its age exceeds max_delay, counting drops. -/
def dropOldFrames (maxDelay now : ℕ) : List BufferedFrame → ℕ → List BufferedFrame × ℕ
  | [], dropped => ([], dropped)
  | f :: rest, dropped =>
    if maxDelay < now - f.arrival_time then dropOldFrames maxDelay now rest (dropped + 1)
    else (f :: rest, dropped)

/-- FrameBuffer::Impl::cleanup_old_frames (part_013 lines 88-122): old
complete frames are dropped, then an assembler older than 2 * max_delay is
discarded. -/
def cleanup_old_frames (st : FrameBufferS) (now : ℕ) : FrameBufferS :=
  let r := dropOldFrames st.config.max_delay now st.complete_frames 0
  let st1 := { st with complete_frames := r.1, frames_dropped := st.frames_dropped + r.2 }
  match st1.assembler with
  | some a =>
      if st1.config.max_delay * 2 < now - a.first_arrival then { st1 with assembler := none }
      else st1
  | none => st1

/-- Assembler mutation of FrameBuffer::insert_packet (part_013 lines
147-175): on first use the timestamp and first_arrival are recorded (the
packet map is still empty), the payload is stored under the 16-bit sequence,
the first bound is lowered by the signed-wrap comparison, a marker packet
sets the last bound, and a keyframe hint marks the frame. -/
def updateAssembler (a0 : FrameAssembler) (now : ℕ) (data : List ℕ) (seq timestamp : ℕ)
    (marker is_keyframe_packet : Bool) : FrameAssembler :=
  let a1 :=
    if a0.packets.isEmpty then { a0 with timestamp := timestamp, first_arrival := now } else a0
  let a2 := { a1 with packets := aset seq data a1.packets }
  let a3 :=
    if a2.has_first = false ∨ seqLt seq a2.first_sequence then
      { a2 with first_sequence := seq, has_first := true }
    else a2
  let a4 := if marker then { a3 with last_sequence := seq, has_last := true } else a3
  if is_keyframe_packet then { a4 with is_keyframe := true } else a4

/-- FrameBuffer::insert_packet (part_013 lines 132-197), restricted to the
single modelled timestamp: the assembler is updated and a now-complete frame
is assembled and queued, unless the keyframe gate drops out early (the early
return also skips cleanup, as in the source). -/
def insert_packet (st : FrameBufferS) (now : ℕ) (data : List ℕ) (sequence timestamp : ℕ)
    (marker is_keyframe_packet : Bool) : FrameBufferS :=
  let seq := sequence % 65536
  let a5 := updateAssembler (st.assembler.getD {}) now data seq timestamp marker
    is_keyframe_packet
  if a5.is_complete then
    if st.config.wait_for_keyframe = true ∧ st.has_keyframe = false ∧ a5.is_keyframe = false then
      { st with assembler := some a5 }
    else
      cleanup_old_frames
        { st with
            has_keyframe := st.has_keyframe || a5.is_keyframe
            complete_frames := st.complete_frames ++ [a5.assemble]
            assembler := none
            frames_buffered := st.frames_buffered + 1 } now
  else cleanup_old_frames { st with assembler := some a5 } now

/-- FrameBuffer::pop_frame (part_013 lines 199-223): the front complete frame
is returned once its age reaches target_delay. -/
def pop_frame (st : FrameBufferS) (now : ℕ) : Option BufferedFrame × FrameBufferS :=
  match st.complete_frames with
  | [] => (none, st)
  | f :: rest =>
    if now - f.arrival_time < st.config.target_delay then (none, st)
    else (some f, { st with complete_frames := rest, frames_decoded := st.frames_decoded + 1 })

end FrameBuffer

/-! ## RTP pacer (src/unnamed/part_009, rtp_pacer.cpp) -/

/-- PacedPacket (rtp_pacer.h).  The enqueue_time field is read only by the
stubbed queue_delay accessor and is omitted. -/
structure PacedPacket where
  data : List ℕ
  destination : String × ℕ
  priority : ℤ
  deriving DecidableEq

/-- RtpPacer::Config. -/
structure PacerConfig where
  target_bitrate_bps : ℕ
  bucket_size_bytes : ℕ
  max_queue_size : ℕ
  deriving DecidableEq

/-- RtpPacer::Impl state (part_009 lines 286-314). -/
structure PacerState where
  config : PacerConfig
  available_tokens : ℕ
  queue : List PacedPacket
  packets_sent : ℕ := 0
  bytes_sent : ℕ := 0
  packets_dropped : ℕ := 0
  deriving DecidableEq

namespace RtpPacer

/-- Fresh pacer (part_009 lines 309-313): the bucket starts full. -/
def init (cfg : PacerConfig) : PacerState :=
  { config := cfg, available_tokens := cfg.bucket_size_bytes, queue := [] }

/-- Priority-queue push: the queue is kept sorted by descending priority
(std::priority_queue under the source's PacketCompare); the relative order of
equal priorities is unspecified in C++ and immaterial to the modelled
claims. -/
def pqPush (p : PacedPacket) : List PacedPacket → List PacedPacket
  | [] => [p]
  | q :: rest => if q.priority < p.priority then p :: q :: rest else q :: pqPush p rest

/-- RtpPacer::enqueue (part_009 lines 325-343): a full queue drops the new
packet. -/
def enqueue (st : PacerState) (data : List ℕ) (destination : String × ℕ) (priority : ℤ) :
    Bool × PacerState :=
  if st.config.max_queue_size ≤ st.queue.length then
    (false, { st with packets_dropped := u64 (st.packets_dropped + 1) })
  else
    (true,
     { st with
        queue := pqPush { data := data, destination := destination, priority := priority }
          st.queue })

/-- Drain loop of RtpPacer::process (part_009 lines 360-382): emit from the
top while the packet fits the token balance, subtracting sizes; stop at the
first packet that does not fit.  Returns (sent, remaining queue, tokens). -/
def drain : List PacedPacket → ℕ → List PacedPacket × List PacedPacket × ℕ
  | [], tokens => ([], [], tokens)
  | p :: rest, tokens =>
    if tokens < p.data.length then ([], p :: rest, tokens)
    else
      let r := drain rest (tokens - p.data.length)
      (p :: r.1, r.2.1, r.2.2)

/-- RtpPacer::process (part_009 lines 345-385) with the elapsed wall-clock
milliseconds as an explicit input: refill
`(target_bitrate_bps / 8) * elapsed_ms / 1000` tokens clamped to the bucket
size, then drain.  Returns the packets handed to the send callback (when one
is installed) in order. -/
def process (st : PacerState) (elapsed_ms : ℕ) : List PacedPacket × PacerState :=
  let new_tokens := st.config.target_bitrate_bps / 8 * elapsed_ms / 1000
  let tokens := min (st.available_tokens + new_tokens) st.config.bucket_size_bytes
  let r := drain st.queue tokens
  (r.1,
   { st with
      queue := r.2.1
      available_tokens := r.2.2
      packets_sent := u64 (st.packets_sent + r.1.length)
      bytes_sent := u64 (st.bytes_sent + (r.1.map (fun p => p.data.length)).sum) })

end RtpPacer

/-- One pacer call in a trace: an enqueue, or a process with the elapsed
milliseconds since the previous process. -/
inductive PacerOp : Type
  | enq (data : List ℕ) (dest : String × ℕ) (priority : ℤ)
  | proc (elapsed_ms : ℕ)
  deriving DecidableEq

/-- Run a pacer trace, collecting every packet handed to the send
callback. -/
def runPacer : PacerState → List PacerOp → PacerState × List PacedPacket
  | st, [] => (st, [])
  | st, PacerOp.enq d dest pr :: rest => runPacer (RtpPacer.enqueue st d dest pr).2 rest
  | st, PacerOp.proc e :: rest =>
    let r := RtpPacer.process st e
    let k := runPacer r.2 rest
    (k.1, r.1 ++ k.2)

/-- Total milliseconds covered by the process calls of a trace. -/
def elapsedTotal : List PacerOp → ℕ
  | [] => 0
  | PacerOp.enq _ _ _ :: rest => elapsedTotal rest
  | PacerOp.proc e :: rest => e + elapsedTotal rest

/-- Total bytes in a list of emitted packets. -/
def totalBytes (l : List PacedPacket) : ℕ := (l.map (fun p => p.data.length)).sum

/-- Total tokens refilled over a trace at target bitrate B: each process call
adds (B / 8) * elapsed_ms / 1000. -/
def sumNewTokens (B : ℕ) : List PacerOp → ℕ
  | [] => 0
  | PacerOp.enq _ _ _ :: rest => sumNewTokens B rest
  | PacerOp.proc e :: rest => B / 8 * e / 1000 + sumNewTokens B rest

/-! ## ICE agent (src/core/src/ice_agent.cpp) -/

/-- IceCandidateType (ice_agent.h). -/
inductive IceCandidateType : Type
  | host
  | server_reflexive
  | peer_reflexive
  | relay
  deriving DecidableEq

/-- IceCandidate (ice_agent.h); `cand_type` renders the C++ `type` field
(a Lean keyword).  `priority` is a uint32 value. -/
structure IceCandidate where
  foundation : String := ""
  component : ℕ := 1
  protocol : String := "udp"
  priority : ℕ := 0
  address : String × ℕ := ("", 0)
  cand_type : IceCandidateType := IceCandidateType.host
  deriving DecidableEq

/-- Candidate-pair state (ice_agent.h). -/
inductive PairState : Type
  | frozen
  | waiting
  | in_progress
  | succeeded
  | failed
  deriving DecidableEq

/-- IceCandidatePair (ice_agent.h); `local_cand`/`remote_cand` render the C++
`local`/`remote` fields (`local` is a Lean keyword). -/
structure IceCandidatePair where
  local_cand : IceCandidate
  remote_cand : IceCandidate
  priority : ℕ
  state : PairState
  deriving DecidableEq

/-- ICE role. -/
inductive IceRole : Type
  | controlling
  | controlled
  deriving DecidableEq

/-- IceAgent::Impl state slice used by the modelled operations. -/
structure IceAgentState where
  role : IceRole
  local_candidates : List IceCandidate
  remote_candidates : List IceCandidate
  candidate_pairs : List IceCandidatePair
  connectivity_checks_received : ℕ := 0
  deriving DecidableEq

namespace IceAgent

/-- Pair priority as computed by IceAgent::add_remote_candidate (ice_agent.cpp
lines 200-208): the controlling side's candidate priority in the upper 32
bits plus the controlled side's in the lower (uint32 inputs keep the uint64
sum exact). -/
def pairPriority (role : IceRole) (localPriority remotePriority : ℕ) : ℕ :=
  if role = IceRole.controlling then localPriority * 2 ^ 32 + remotePriority
  else remotePriority * 2 ^ 32 + localPriority

/-- IceAgent::add_remote_candidate (ice_agent.cpp lines 190-212): the remote
candidate is stored and a frozen pair is appended for every local
candidate. -/
def add_remote_candidate (st : IceAgentState) (candidate : IceCandidate) : IceAgentState :=
  let pairs := st.local_candidates.map
    (fun l =>
      { local_cand := l, remote_cand := candidate
        priority := pairPriority st.role l.priority candidate.priority
        state := PairState.frozen })
  { st with
      remote_candidates := st.remote_candidates ++ [candidate]
      candidate_pairs := st.candidate_pairs ++ pairs }

/-- Pair priority as the specification words it (RFC 8445):
`min(G,D) << 32 | max(G,D) << 1 | (G > D ? 1 : 0)` as a 64-bit value, where G
is the controlling side's candidate priority and D the controlled side's.
This definition follows the spec, for comparison with pairPriority. -/
def specPairPriority (g d : ℕ) : ℕ :=
  (min g d * 2 ^ 32 + max g d * 2 + (if d < g then 1 else 0)) % 2 ^ 64

/-- STUN classification test of IceAgent::process_packet (ice_agent.cpp line
262): at least 20 bytes and the two leading bits of the first byte clear.
The source does not inspect the RFC 5389 magic cookie. -/
def stunClassified (data : List ℕ) : Bool :=
  decide (20 ≤ data.length) && decide (Nat.land (data.headD 0) 192 = 0)

/-- IceAgent::process_packet (ice_agent.cpp lines 259-276): a STUN-classified
packet bumps the connectivity-check counter; anything else is handed to the
on_data callback (returned as `some data`, the invocation made when a
callback is installed). -/
def process_packet (st : IceAgentState) (data : List ℕ) :
    IceAgentState × Option (List ℕ) :=
  if stunClassified data then
    ({ st with connectivity_checks_received := st.connectivity_checks_received + 1 }, none)
  else (st, some data)

/-- Packet classification as the specification words it: STUN iff length at
least 20, leading two bits 00, and the four bytes at offsets 4..7 equal to
the magic cookie 0x2112A442.  This definition follows the spec, for
comparison with stunClassified. -/
def specIsStun (data : List ℕ) : Prop :=
  20 ≤ data.length ∧ Nat.land (data.headD 0) 192 = 0 ∧
    data.get? 4 = some 0x21 ∧ data.get? 5 = some 0x12 ∧
    data.get? 6 = some 0xA4 ∧ data.get? 7 = some 0x42

instance (data : List ℕ) : Decidable (specIsStun data) := by
  unfold specIsStun
  exact inferInstance

end IceAgent

/-! ## Concrete instances evaluated by witnesses -/

/-- Forwarding rule of the SSRC-rewrite scenario (spec section 8, scenario 2). -/
def c1Rule : ForwardingRule :=
  { subscriber_id := "S", destination := ("10.0.0.2", 5000), rewritten_ssrc := 0x11223344,
    preferred_simulcast_layer := -1, is_active := true }

/-- Publisher stream of the SSRC-rewrite scenario. -/
def c1Stream : PublisherStream :=
  { publisher_id := "P", stream_id := "v"
    info := { ssrc := 0xAABBCCDD, payload_type := 111, simulcast_layer := -1 }
    subscribers := [c1Rule] }

/-- Forwarder holding the SSRC-rewrite scenario stream. -/
def c1State : ForwarderState :=
  { callback_set := true, ssrc_to_stream := [(0xAABBCCDD, c1Stream)]
    publisher_ssrcs := [("P", [0xAABBCCDD])], stats := {} }

/-- A 12-byte RTP header whose SSRC field (bytes 8..11) reads 0xAABBCCDD. -/
def c1Packet : List ℕ := [128, 111, 0, 1, 0, 0, 0, 2, 0xAA, 0xBB, 0xCC, 0xDD]

/-- Local host candidate of priority 3, used by witnesses. -/
def iceCandW : IceCandidate :=
  { foundation := "1", component := 1, protocol := "udp", priority := 3,
    address := ("192.168.0.2", 40000), cand_type := IceCandidateType.host }

/-- An ICE agent in the controlled role with one local candidate, used by
witnesses. -/
def iceAgentW : IceAgentState :=
  { role := IceRole.controlled
    local_candidates := [iceCandW]
    remote_candidates := [], candidate_pairs := [] }

/-- The pair the witness agent forms for a remote candidate of priority 7. -/
def icePairW : IceCandidatePair :=
  { local_cand := iceCandW, remote_cand := { priority := 7 },
    priority := 7 * 2 ^ 32 + 3, state := PairState.frozen }

/-- Mixer source "A" (recipient of the witness scenario). -/
def mixSrcA : AudioSource :=
  { id := "A", params := {}, buffer := fun _ => 1000, last_timestamp := 160, has_data := true }

/-- Variant of source "A" that pushed different samples. -/
def mixSrcA2 : AudioSource :=
  { id := "A", params := {}, buffer := fun _ => 7, last_timestamp := 160, has_data := true }

/-- Mixer source "B". -/
def mixSrcB : AudioSource :=
  { id := "B", params := {}, buffer := fun _ => 2000, last_timestamp := 160, has_data := true }

/-- Two-source mixer state of the witness scenario (mono, 2 samples). -/
def mixStW : MixerState := { frame_size := 2, sources := [mixSrcA, mixSrcB] }

/-- The same mixer state after "A" pushed different samples. -/
def mixStW2 : MixerState := { frame_size := 2, sources := [mixSrcA2, mixSrcB] }

/-- A complete three-packet assembler (sequences 10..12, marker at 12), used
by the C5 witness. -/
def frameAsmW : FrameAssembler :=
  { timestamp := 1000, packets := [(10, [1]), (12, [3]), (11, [2])]
    first_sequence := 10, last_sequence := 12
    has_first := true, has_last := true, is_keyframe := true, first_arrival := 0 }

/-- A frame buffer holding the assembled witness frame in its complete
queue. -/
def frameStW : FrameBufferS :=
  { config := { target_delay := 0, max_delay := 1000, wait_for_keyframe := false }
    assembler := none
    complete_frames := [frameAsmW.assemble]
    has_keyframe := true, frames_buffered := 1 }

/-- Pacer configuration of the C6 witness: 800 kbps, 3000-byte bucket. -/
def pacerCfgW : PacerConfig :=
  { target_bitrate_bps := 800000, bucket_size_bytes := 3000, max_queue_size := 10 }

/-! ## Association-list lemmas -/

theorem afind_aset_self {α β : Type} [DecidableEq α] (k : α) (v : β) (m : List (α × β)) :
    afind k (aset k v m) = some v := by
  induction m with
  | nil => simp [afind, aset]
  | cons e rest ih =>
    by_cases h : e.1 = k
    · simp [afind, aset, h]
    · simp [afind, aset, h, ih]

theorem afind_aset_ne {α β : Type} [DecidableEq α] (k k' : α) (v : β) (m : List (α × β))
    (h : k' ≠ k) : afind k' (aset k v m) = afind k' m := by
  have hk : ¬ k = k' := fun hh => h hh.symm
  induction m with
  | nil => simp [afind, aset, hk]
  | cons e rest ih =>
    by_cases he : e.1 = k
    · subst he
      simp [afind, aset, hk]
    · simp [afind, aset, he, ih]

theorem afind_aupd_self {α β : Type} [DecidableEq α] (k : α) (d : β) (f : β → β)
    (m : List (α × β)) : afind k (aupd k d f m) = some (f ((afind k m).getD d)) := by
  induction m with
  | nil => simp [afind, aupd]
  | cons e rest ih =>
    by_cases h : e.1 = k
    · simp [afind, aupd, h]
    · simp [afind, aupd, h, ih]

/-! ## C1: SSRC rewrite bit-exactness -/

theorem forward_packet_emissions (cb : Bool) (stream : PublisherStream) (packet : List ℕ)
    (stats : ForwarderStats) :
    (forward_packet cb stream packet stats).1 =
      stream.subscribers.filterMap (fun rule =>
        if rule.is_active = true ∧ layerSkip rule stream.info = false ∧ cb = true then
          some (rule.subscriber_id, emissionBytes rule stream.info packet, rule.destination)
        else none) := by
  have main : ∀ (rules : List ForwardingRule) (acc : List Emission × ForwarderStats),
      (rules.foldl (forwardStep cb stream.info packet) acc).1 =
        acc.1 ++ rules.filterMap (fun rule =>
          if rule.is_active = true ∧ layerSkip rule stream.info = false ∧ cb = true then
            some (rule.subscriber_id, emissionBytes rule stream.info packet, rule.destination)
          else none) := by
    intro rules
    induction rules with
    | nil => intro acc; simp
    | cons r rest ih =>
      intro acc
      rw [List.foldl_cons, List.filterMap_cons, ih]
      cases hact : r.is_active with
      | false => simp [forwardStep, hact]
      | true =>
        cases hskip : layerSkip r stream.info with
        | true => simp [forwardStep, hact, hskip]
        | false =>
          cases cb with
          | false => simp [forwardStep, hact, hskip]
          | true => simp [forwardStep, hact, hskip]
  simpa [forward_packet] using main stream.subscribers ([], stats)

/-- C1: for a delivered packet of length at least 12 and an eligible rule
whose rewritten_ssrc is non-zero and differs from the stream SSRC, the bytes
handed to the send sink agree with the input at positions 0..7 and 12..end,
and positions 8..11 carry rewritten_ssrc in network (big-endian) byte
order. -/
theorem ssrc_rewrite_bit_exact (st : ForwarderState) (ssrc : ℕ) (packet : List ℕ)
    (stream : PublisherStream) (rule : ForwardingRule)
    (hlook : afind ssrc st.ssrc_to_stream = some stream)
    (hcb : st.callback_set = true)
    (hmem : rule ∈ stream.subscribers)
    (hact : rule.is_active = true)
    (hlayer : layerSkip rule stream.info = false)
    (hnz : rule.rewritten_ssrc ≠ 0)
    (hne : rule.rewritten_ssrc ≠ stream.info.ssrc)
    (hlen : 12 ≤ packet.length)
    (hw : rule.rewritten_ssrc < 2 ^ 32) :
    ∃ b, (rule.subscriber_id, b, rule.destination) ∈ (on_rtp_packet st ssrc packet).2 ∧
      b.length = packet.length ∧
      (∀ i, i < 8 → b[i]? = packet[i]?) ∧
      (∀ i, 12 ≤ i → b[i]? = packet[i]?) ∧
      ∃ b8 b9 b10 b11, b[8]? = some b8 ∧ b[9]? = some b9 ∧ b[10]? = some b10 ∧
        b[11]? = some b11 ∧
        b8 * 2 ^ 24 + b9 * 2 ^ 16 + b10 * 2 ^ 8 + b11 = rule.rewritten_ssrc := by
  have hbytes : emissionBytes rule stream.info packet =
      (((packet.set 8 (rule.rewritten_ssrc / 2 ^ 24 % 256)).set 9
          (rule.rewritten_ssrc / 2 ^ 16 % 256)).set 10
            (rule.rewritten_ssrc / 2 ^ 8 % 256)).set 11 (rule.rewritten_ssrc % 256) := by
    rw [emissionBytes, if_pos ⟨hnz, hne⟩, rewriteSsrcBytes, if_pos hlen]
  refine ⟨emissionBytes rule stream.info packet, ?_, ?_, ?_, ?_, ?_⟩
  · simp only [on_rtp_packet, hlook]
    rw [forward_packet_emissions]
    exact List.mem_filterMap.mpr ⟨rule, hmem, by simp [hact, hlayer, hcb]⟩
  · rw [hbytes]
    simp
  · intro i hi
    rw [hbytes,
      List.getElem?_set_ne (by omega), List.getElem?_set_ne (by omega),
      List.getElem?_set_ne (by omega), List.getElem?_set_ne (by omega)]
  · intro i hi
    rw [hbytes,
      List.getElem?_set_ne (by omega), List.getElem?_set_ne (by omega),
      List.getElem?_set_ne (by omega), List.getElem?_set_ne (by omega)]
  · refine ⟨rule.rewritten_ssrc / 2 ^ 24 % 256, rule.rewritten_ssrc / 2 ^ 16 % 256,
      rule.rewritten_ssrc / 2 ^ 8 % 256, rule.rewritten_ssrc % 256, ?_, ?_, ?_, ?_, ?_⟩
    · rw [hbytes, List.getElem?_set_ne (by omega), List.getElem?_set_ne (by omega),
        List.getElem?_set_ne (by omega)]
      exact List.getElem?_set_eq_of_lt _ (by omega)
    · rw [hbytes, List.getElem?_set_ne (by omega), List.getElem?_set_ne (by omega)]
      exact List.getElem?_set_eq_of_lt _ (by simp only [List.length_set]; omega)
    · rw [hbytes, List.getElem?_set_ne (by omega)]
      exact List.getElem?_set_eq_of_lt _ (by simp only [List.length_set]; omega)
    · rw [hbytes]
      exact List.getElem?_set_eq_of_lt _ (by simp only [List.length_set]; omega)
    · omega

/-- C1 witness: one publisher stream with one rewriting rule and a 12-byte
packet; the rewritten SSRC 0x11223344 lands in bytes 8..11. -/
theorem ssrc_rewrite_bit_exact_witness :
    ∃ b, ("S", b, ("10.0.0.2", 5000)) ∈ (on_rtp_packet c1State 0xAABBCCDD c1Packet).2 ∧
      b.length = c1Packet.length ∧
      (∀ i, i < 8 → b[i]? = c1Packet[i]?) ∧
      (∀ i, 12 ≤ i → b[i]? = c1Packet[i]?) ∧
      ∃ b8 b9 b10 b11, b[8]? = some b8 ∧ b[9]? = some b9 ∧ b[10]? = some b10 ∧
        b[11]? = some b11 ∧
        b8 * 2 ^ 24 + b9 * 2 ^ 16 + b10 * 2 ^ 8 + b11 = c1Rule.rewritten_ssrc :=
  ssrc_rewrite_bit_exact c1State 0xAABBCCDD c1Packet c1Stream c1Rule (by decide) (by decide)
    (by decide) (by decide) (by decide) (by decide) (by decide) (by decide) (by decide)

/-! ## C9: SSRC collision on add_publisher -/

/-- C9 counterexample: registering a second publisher stream with an SSRC
already present in the table is not rejected; the existing entry (publisher
"P1", one forwarding rule) is replaced by the new registration (publisher
"P2", no rules). -/
theorem add_publisher_collision_counterexample :
    let info1 : RtpStreamInfo := { ssrc := 7, payload_type := 111, simulcast_layer := -1 }
    let rule : ForwardingRule :=
      { subscriber_id := "", destination := ("10.0.0.2", 5000), rewritten_ssrc := 0,
        preferred_simulcast_layer := -1, is_active := true }
    let before :=
      add_subscription (add_publisher (ForwarderState.init true) "P1" "v" info1) "P1" "S" rule
    let info2 : RtpStreamInfo := { ssrc := 7, payload_type := 96, simulcast_layer := -1 }
    let after := add_publisher before "P2" "w" info2
    (afind 7 before.ssrc_to_stream).map (fun s => (s.publisher_id, s.subscribers.length)) =
        some ("P1", 1) ∧
      (afind 7 after.ssrc_to_stream).map (fun s => (s.publisher_id, s.subscribers.length)) =
        some ("P2", 0) := by
  constructor <;> decide

/-- C9 (amended): on an SSRC collision, add_publisher replaces the existing
stream entry with the newly registered stream (whose rule list is empty),
appends the SSRC to the registering publisher's list, and surfaces no error
(the operation is total and leaves the subscriber count untouched). -/
theorem add_publisher_overwrites (st : ForwarderState) (pid sid : String)
    (info : RtpStreamInfo) :
    afind info.ssrc (add_publisher st pid sid info).ssrc_to_stream =
        some { publisher_id := pid, stream_id := sid, info := info, subscribers := [] } ∧
      afind pid (add_publisher st pid sid info).publisher_ssrcs =
        some ((afind pid st.publisher_ssrcs).getD [] ++ [info.ssrc]) ∧
      (add_publisher st pid sid info).stats.active_subscribers =
        st.stats.active_subscribers := by
  refine ⟨?_, ?_, rfl⟩
  · exact afind_aset_self _ _ _
  · exact afind_aupd_self _ _ _ _

/-! ## C10: remove_subscription -/

/-- C10: when the publisher id is unknown, remove_subscription leaves the
whole forwarder state (statistics included) unchanged; when it is known,
`active_subscribers` is decremented by one (as a 64-bit size_t, so modulo
2^64) unconditionally, in particular even when no rule for the subscriber
existed on any stream. -/
theorem remove_subscription_spec (st : ForwarderState) (pid sub : String) :
    (afind pid st.publisher_ssrcs = none → remove_subscription st pid sub = st) ∧
      ∀ l, afind pid st.publisher_ssrcs = some l →
        (remove_subscription st pid sub).stats.active_subscribers =
            u64 (st.stats.active_subscribers + 2 ^ 64 - 1) ∧
          (1 ≤ st.stats.active_subscribers → st.stats.active_subscribers < 2 ^ 64 →
            (remove_subscription st pid sub).stats.active_subscribers =
              st.stats.active_subscribers - 1) := by
  constructor
  · intro h
    simp [remove_subscription, h]
  · intro l hl
    refine ⟨by simp [remove_subscription, hl], fun h1 h2 => ?_⟩
    simp only [remove_subscription, hl, u64]
    omega

/-! ## C2: mix-minus-self -/

theorem mixAccum_filter_sum (sources : List AudioSource) (recipient : String) (i : ℕ) :
    AudioMixer.mixAccum sources recipient i =
      ((sources.filter (fun s =>
          decide (¬ s.id = recipient ∧ s.has_data = true ∧ s.params.muted = false))).map
        (fun s => AudioMixer.scaledSample s i)).sum := by
  have aux : ∀ (l : List AudioSource) (acc : ℤ),
      l.foldl
          (fun acc s =>
            if s.id = recipient then acc
            else if s.has_data = false then acc
            else if s.params.muted then acc
            else acc + AudioMixer.scaledSample s i)
          acc =
        acc + ((l.filter (fun s =>
            decide (¬ s.id = recipient ∧ s.has_data = true ∧ s.params.muted = false))).map
          (fun s => AudioMixer.scaledSample s i)).sum := by
    intro l
    induction l with
    | nil => intro acc; simp
    | cons s rest ih =>
      intro acc
      by_cases h1 : s.id = recipient
      · simp [List.foldl_cons, h1, ih]
      · cases h2 : s.has_data with
        | false => simp [List.foldl_cons, h1, h2, ih]
        | true =>
          cases h3 : s.params.muted with
          | true => simp [List.foldl_cons, h1, h2, h3, ih]
          | false =>
            have hstep : (if s.id = recipient then acc
                else if s.has_data = false then acc
                else if s.params.muted then acc
                else acc + AudioMixer.scaledSample s i) =
                acc + AudioMixer.scaledSample s i := by
              simp [h1, h2, h3]
            have hf : (s :: rest).filter (fun s =>
                decide (¬ s.id = recipient ∧ s.has_data = true ∧ s.params.muted = false)) =
                s :: rest.filter (fun s =>
                  decide (¬ s.id = recipient ∧ s.has_data = true ∧ s.params.muted = false)) := by
              simp [h1, h2, h3]
            simp only [List.foldl_cons]
            rw [hstep, ih, hf]
            simp only [List.map_cons, List.sum_cons]
            omega
  simpa [AudioMixer.mixAccum] using aux sources 0

theorem mixAccum_congr (recipient : String) (i : ℕ) (l l' : List AudioSource)
    (hrel : List.Forall₂ (fun s t => s.id = t.id ∧ s.params = t.params ∧
        s.has_data = t.has_data ∧ s.last_timestamp = t.last_timestamp ∧
        (¬ s.id = recipient → s.buffer = t.buffer)) l l') :
    AudioMixer.mixAccum l recipient i = AudioMixer.mixAccum l' recipient i := by
  have aux : ∀ (a b : List AudioSource),
      List.Forall₂ (fun s t => s.id = t.id ∧ s.params = t.params ∧
        s.has_data = t.has_data ∧ s.last_timestamp = t.last_timestamp ∧
        (¬ s.id = recipient → s.buffer = t.buffer)) a b →
      ∀ acc : ℤ,
        a.foldl
            (fun acc s =>
              if s.id = recipient then acc
              else if s.has_data = false then acc
              else if s.params.muted then acc
              else acc + AudioMixer.scaledSample s i)
            acc =
          b.foldl
            (fun acc s =>
              if s.id = recipient then acc
              else if s.has_data = false then acc
              else if s.params.muted then acc
              else acc + AudioMixer.scaledSample s i)
            acc := by
    intro a b hab
    induction hab with
    | nil => intro acc; rfl
    | @cons s t l1 l2 hst hrest ih =>
      intro acc
      rcases hst with ⟨hid, hparams, hdata, _, hbuf⟩
      simp only [List.foldl_cons]
      by_cases h1 : s.id = recipient
      · have h1t : t.id = recipient := by rw [← hid]; exact h1
        rw [if_pos h1, if_pos h1t]
        exact ih acc
      · have h1t : ¬ t.id = recipient := fun h => h1 (by rw [hid]; exact h)
        have hscale : AudioMixer.scaledSample s i = AudioMixer.scaledSample t i := by
          unfold AudioMixer.scaledSample
          rw [hbuf h1, hparams]
        rw [if_neg h1, if_neg h1t, hdata, hparams, hscale]
        exact ih _
  exact aux l l' hrel 0

theorem forall2_mem_left {α : Type} {rel : α → α → Prop} {l l' : List α}
    (h : List.Forall₂ rel l l') {a : α} (ha : a ∈ l) : ∃ b ∈ l', rel a b := by
  induction h with
  | nil => cases ha
  | @cons x y l1 l2 hr _ ih =>
    rcases List.mem_cons.mp ha with rfl | ha'
    · exact ⟨y, by simp, hr⟩
    · rcases ih ha' with ⟨b, hb, hrel⟩
      exact ⟨b, by simp [hb], hrel⟩

/-- C2: on a mixer tick the samples delivered to a recipient are the
int16-saturated sum of the volume-scaled samples of the non-muted sources
with data whose id differs from the recipient; a run differing only in the
recipient's own pushed samples delivers the identical output tuple to that
recipient; and at most one output per tick carries the recipient's id. -/
theorem mixer_mix_minus_self (st st' : MixerState) (r : AudioSource)
    (hmem : r ∈ st.sources)
    (hnd : (st.sources.map AudioSource.id).Nodup)
    (hfs : st'.frame_size = st.frame_size)
    (hrel : List.Forall₂ (fun s t => s.id = t.id ∧ s.params = t.params ∧
        s.has_data = t.has_data ∧ s.last_timestamp = t.last_timestamp ∧
        (¬ s.id = r.id → s.buffer = t.buffer)) st.sources st'.sources) :
    (r.id, (List.range st.frame_size).map (fun i =>
        AudioMixer.sat16 (((st.sources.filter (fun s =>
            decide (¬ s.id = r.id ∧ s.has_data = true ∧ s.params.muted = false))).map
          (fun s => AudioMixer.scaledSample s i)).sum)),
      r.last_timestamp) ∈ (AudioMixer.process st).1 ∧
    (r.id, AudioMixer.mixOutput st r.id, r.last_timestamp) ∈ (AudioMixer.process st').1 ∧
    (AudioMixer.process st).1.countP (fun o => o.1 == r.id) ≤ 1 := by
  have hne : st.sources.isEmpty = false := by
    cases hs : st.sources with
    | nil => rw [hs] at hmem; cases hmem
    | cons a l => simp
  have hproc : (AudioMixer.process st).1 =
      st.sources.map (fun s => (s.id, AudioMixer.mixOutput st s.id, s.last_timestamp)) := by
    simp [AudioMixer.process, hne]
  refine ⟨?_, ?_, ?_⟩
  · rw [hproc]
    refine List.mem_map.mpr ⟨r, hmem, ?_⟩
    have : AudioMixer.mixOutput st r.id =
        (List.range st.frame_size).map (fun i =>
          AudioMixer.sat16 (((st.sources.filter (fun s =>
              decide (¬ s.id = r.id ∧ s.has_data = true ∧ s.params.muted = false))).map
            (fun s => AudioMixer.scaledSample s i)).sum)) := by
      unfold AudioMixer.mixOutput
      exact List.map_congr_left (fun i _ => by rw [mixAccum_filter_sum])
    rw [this]
  · rcases forall2_mem_left hrel hmem with ⟨r', hr', hrelr⟩
    have hne' : st'.sources.isEmpty = false := by
      cases hs : st'.sources with
      | nil => rw [hs] at hr'; cases hr'
      | cons a l => simp
    have hproc' : (AudioMixer.process st').1 =
        st'.sources.map (fun s => (s.id, AudioMixer.mixOutput st' s.id, s.last_timestamp)) := by
      simp [AudioMixer.process, hne']
    rw [hproc']
    refine List.mem_map.mpr ⟨r', hr', ?_⟩
    rcases hrelr with ⟨hid, _, _, hts, _⟩
    have hout : AudioMixer.mixOutput st' r'.id = AudioMixer.mixOutput st r.id := by
      rw [← hid]
      unfold AudioMixer.mixOutput
      rw [hfs]
      exact List.map_congr_left (fun i _ => by rw [mixAccum_congr r.id i _ _ hrel])
    rw [hout, ← hid, ← hts]
  · rw [hproc, List.countP_map]
    have h1 : (st.sources.map AudioSource.id).count r.id ≤ 1 :=
      List.nodup_iff_count_le_one.mp hnd r.id
    simpa [List.count, List.countP_map, Function.comp] using h1

/-- C2 witness: sources "A" (1000s) and "B" (2000s); the second state has
"A" pushing different samples; the theorem applies with recipient "A". -/
theorem mixer_mix_minus_self_witness :
    ((mixSrcA.id, (List.range mixStW.frame_size).map (fun i =>
        AudioMixer.sat16 (((mixStW.sources.filter (fun s =>
            decide (¬ s.id = mixSrcA.id ∧ s.has_data = true ∧ s.params.muted = false))).map
          (fun s => AudioMixer.scaledSample s i)).sum)),
      mixSrcA.last_timestamp) ∈ (AudioMixer.process mixStW).1) ∧
    ((mixSrcA.id, AudioMixer.mixOutput mixStW mixSrcA.id, mixSrcA.last_timestamp) ∈
      (AudioMixer.process mixStW2).1) ∧
    (AudioMixer.process mixStW).1.countP (fun o => o.1 == mixSrcA.id) ≤ 1 :=
  mixer_mix_minus_self mixStW mixStW2 mixSrcA (List.mem_cons_self _ _) (by decide) rfl
    (List.Forall₂.cons ⟨rfl, rfl, rfl, rfl, fun h => absurd rfl h⟩
      (List.Forall₂.cons ⟨rfl, rfl, rfl, rfl, fun _ => rfl⟩ List.Forall₂.nil))

/-! ## C3: bandwidth-bounded layer selection -/

theorem select_layer_cases (bps : ℕ) (ls : List SimulcastLayerInfo) (acc : ℤ) :
    (ls.foldl
        (fun best l =>
          if l.is_active = true ∧ l.bitrate_kbps * 1000 ≤ bps then l.layer_index else best)
        acc = acc ∧
      ∀ l ∈ ls, ¬ (l.is_active = true ∧ l.bitrate_kbps * 1000 ≤ bps)) ∨
    (∃ l ∈ ls, ls.foldl
        (fun best l =>
          if l.is_active = true ∧ l.bitrate_kbps * 1000 ≤ bps then l.layer_index else best)
        acc = l.layer_index ∧ l.is_active = true ∧ l.bitrate_kbps * 1000 ≤ bps) := by
  induction ls generalizing acc with
  | nil => exact Or.inl ⟨rfl, by simp⟩
  | cons l rest ih =>
    by_cases hf : l.is_active = true ∧ l.bitrate_kbps * 1000 ≤ bps
    · rcases ih l.layer_index with ⟨heq, _⟩ | ⟨l', hl', heq, hfit⟩
      · refine Or.inr ⟨l, by simp, ?_, hf.1, hf.2⟩
        simpa [if_pos hf] using heq
      · refine Or.inr ⟨l', by simp [hl'], ?_, hfit⟩
        simpa [if_pos hf] using heq
    · rcases ih acc with ⟨heq, hnone⟩ | ⟨l', hl', heq, hfit⟩
      · refine Or.inl ⟨by simpa [if_neg hf] using heq, ?_⟩
        intro x hx
        rcases List.mem_cons.mp hx with rfl | hx'
        · exact hf
        · exact hnone x hx'
      · refine Or.inr ⟨l', by simp [hl'], ?_, hfit⟩
        simpa [if_neg hf] using heq

/-- C3 counterexample: a subscriber with recorded bandwidth 1000 bps and a
layer table holding one active layer of 150 kbps: no active layer fits, so
selection falls back to layer 0 even though its bitrate exceeds the
estimate. -/
theorem select_best_layer_counterexample :
    let st := SubscriptionManager.update_bandwidth
      (SubscriptionManager.set_available_layers SubscriptionManager.init "P" "v"
        [{ layer_index := 0, width := 320, height := 180, fps := 15, bitrate_kbps := 150,
           is_active := true }])
      "S" { estimated_bps := 1000 }
    SubscriptionManager.select_best_layer st "S" ("P", "v") = 0 ∧
      ((afind "S" st.bandwidth_info).map (fun b => b.estimated_bps)) = some 1000 ∧
      ((afind ("P", "v") st.stream_layers).map (fun ls => ls.map
        (fun l => (l.layer_index, l.bitrate_kbps, l.is_active)))) = some [(0, 150, true)] ∧
      1000 < 150 * 1000 := by
  refine ⟨?_, ?_, ?_, ?_⟩ <;> decide

/-- C3 (amended): with a recorded bandwidth estimate and a layer table
present, automatic selection returns either the layer_index of an active
layer whose bitrate_kbps x 1000 fits the estimate (the last such layer in
the table), or the fallback value 0 chosen when no active layer fits, which
may exceed the estimate; with no bandwidth info it returns 2 and with no
table it returns 0. -/
theorem select_best_layer_spec (st : SubMgrState) (sub : String) (key : StreamKey)
    (bw : BandwidthInfo) (layers : List SimulcastLayerInfo)
    (hbw : afind sub st.bandwidth_info = some bw)
    (hl : afind key st.stream_layers = some layers) :
    SubscriptionManager.select_best_layer st sub key = 0 ∨
      ∃ l ∈ layers, l.layer_index = SubscriptionManager.select_best_layer st sub key ∧
        l.is_active = true ∧ l.bitrate_kbps * 1000 ≤ bw.estimated_bps := by
  have hsel : SubscriptionManager.select_best_layer st sub key =
      layers.foldl
        (fun best l =>
          if l.is_active = true ∧ l.bitrate_kbps * 1000 ≤ bw.estimated_bps then l.layer_index
          else best)
        0 := by
    simp [SubscriptionManager.select_best_layer, hbw, hl]
  rcases select_layer_cases bw.estimated_bps layers 0 with ⟨heq, _⟩ | ⟨l, hl', heq, hfit⟩
  · exact Or.inl (hsel.trans heq)
  · exact Or.inr ⟨l, hl', (hsel.trans heq).symm, hfit⟩

/-- C3 witness: three active layers of 150/500/1500 kbps and an 800 kbps
estimate; the selection is layer 0 or a fitting active layer (here layer
1). -/
theorem select_best_layer_spec_witness :
    SubscriptionManager.select_best_layer
        (SubscriptionManager.update_bandwidth
          (SubscriptionManager.set_available_layers SubscriptionManager.init "P" "v"
            [{ layer_index := 0, width := 320, height := 180, fps := 15, bitrate_kbps := 150,
               is_active := true },
             { layer_index := 1, width := 640, height := 360, fps := 30, bitrate_kbps := 500,
               is_active := true },
             { layer_index := 2, width := 1280, height := 720, fps := 30, bitrate_kbps := 1500,
               is_active := true }])
          "S" { estimated_bps := 800000 })
        "S" ("P", "v") = 0 ∨
      ∃ l ∈ [({ layer_index := 0, width := 320, height := 180, fps := 15, bitrate_kbps := 150,
                is_active := true } : SimulcastLayerInfo),
             { layer_index := 1, width := 640, height := 360, fps := 30, bitrate_kbps := 500,
               is_active := true },
             { layer_index := 2, width := 1280, height := 720, fps := 30, bitrate_kbps := 1500,
               is_active := true }],
        l.layer_index =
            SubscriptionManager.select_best_layer
              (SubscriptionManager.update_bandwidth
                (SubscriptionManager.set_available_layers SubscriptionManager.init "P" "v"
                  [{ layer_index := 0, width := 320, height := 180, fps := 15,
                     bitrate_kbps := 150, is_active := true },
                   { layer_index := 1, width := 640, height := 360, fps := 30,
                     bitrate_kbps := 500, is_active := true },
                   { layer_index := 2, width := 1280, height := 720, fps := 30,
                     bitrate_kbps := 1500, is_active := true }])
                "S" { estimated_bps := 800000 })
              "S" ("P", "v") ∧
          l.is_active = true ∧
          l.bitrate_kbps * 1000 ≤
            ({ estimated_bps := 800000 } : BandwidthInfo).estimated_bps :=
  select_best_layer_spec _ "S" ("P", "v") { estimated_bps := 800000 } _ (by rfl) (by rfl)

/-! ## C4: layer-switch hysteresis -/

theorem process_foldl_spec (st : SubMgrState)
    (entries : List (SubscriptionKey × Subscription))
    (acc : List (SubscriptionKey × Subscription) × List (String × String × ℤ × ℤ)) :
    entries.foldl (SubscriptionManager.processStep st) acc =
      (acc.1 ++ entries.map (fun e =>
          if e.2.is_paused = true ∨ 0 ≤ e.2.target_layer then e
          else if SubscriptionManager.select_best_layer st e.1.1 (e.1.2.1, e.1.2.2) ≠
              e.2.current_layer then
            (e.1, { e.2 with
              current_layer := SubscriptionManager.select_best_layer st e.1.1 (e.1.2.1, e.1.2.2) })
          else e),
       acc.2 ++ entries.filterMap (fun e =>
          if e.2.is_paused = false ∧ e.2.target_layer < 0 ∧
              SubscriptionManager.select_best_layer st e.1.1 (e.1.2.1, e.1.2.2) ≠
                e.2.current_layer then
            some (e.1.1, e.1.2.1, e.2.current_layer,
              SubscriptionManager.select_best_layer st e.1.1 (e.1.2.1, e.1.2.2))
          else none)) := by
  induction entries generalizing acc with
  | nil => simp
  | cons e rest ih =>
    by_cases hskip : e.2.is_paused = true ∨ 0 ≤ e.2.target_layer
    · have hnev : ¬ (e.2.is_paused = false ∧ e.2.target_layer < 0 ∧
          SubscriptionManager.select_best_layer st e.1.1 (e.1.2.1, e.1.2.2) ≠
            e.2.current_layer) := by
        rcases hskip with h | h
        · intro hc
          rw [h] at hc
          exact absurd hc.1 (by simp)
        · intro hc
          omega
      simp [SubscriptionManager.processStep, hskip, hnev, ih]
    · have hp : e.2.is_paused = false := by
        rcases hb : e.2.is_paused with _ | _
        · rfl
        · exact absurd (Or.inl hb) hskip
      have ht : e.2.target_layer < 0 := by
        rcases not_or.mp hskip with ⟨_, h2⟩
        omega
      have hnle : ¬ (0 ≤ e.2.target_layer) := by omega
      by_cases hch : SubscriptionManager.select_best_layer st e.1.1 (e.1.2.1, e.1.2.2) =
          e.2.current_layer
      · simp [SubscriptionManager.processStep, hskip, hp, ht, hnle, hch, ih]
      · simp [SubscriptionManager.processStep, hskip, hp, ht, hnle, hch, ih]

/-- C4 counterexample: no hysteresis is applied.  An automatic subscription
(layers 150 and 500 kbps, both active) is downgraded to layer 0 under a
200 kbps estimate; one bandwidth update to 500 kbps later, a single
process() call upgrades it to layer 1 even though the candidate layer's
bitrate (500000) exceeds 85 percent of the available bandwidth (425000) and
no second confirming cycle has elapsed. -/
theorem hysteresis_counterexample :
    let st1 := SubscriptionManager.set_available_layers
      (SubscriptionManager.subscribe SubscriptionManager.init "S" "P" "v" (-1)) "P" "v"
      [{ layer_index := 0, width := 320, height := 180, fps := 15, bitrate_kbps := 150,
         is_active := true },
       { layer_index := 1, width := 640, height := 360, fps := 30, bitrate_kbps := 500,
         is_active := true }]
    let r1 := SubscriptionManager.process
      (SubscriptionManager.update_bandwidth st1 "S" { estimated_bps := 200000 })
    let r2 := SubscriptionManager.process
      (SubscriptionManager.update_bandwidth r1.1 "S" { estimated_bps := 500000 })
    SubscriptionManager.get_current_layer r1.1 "S" "P" = 0 ∧
      SubscriptionManager.get_current_layer r2.1 "S" "P" = 1 ∧
      r2.2 = [("S", "P", 0, 1)] ∧
      85 * 500000 < 100 * (500 * 1000) := by
  refine ⟨?_, ?_, ?_, ?_⟩ <;> decide

/-- C4 (amended): the subscription manager keeps no per-subscription
history: every process() call immediately sets each unpaused automatic
subscription's current_layer to select_best_layer's result, recording the
switch event in that same call when the layer differs; upgrades are not
gated on a sustained 85 percent condition, and the decision reads only the
bandwidth estimate — packet loss and RTT are never consulted. -/
theorem process_no_hysteresis (st : SubMgrState) (k : SubscriptionKey) (sub : Subscription)
    (hmem : (k, sub) ∈ st.subscriptions)
    (hauto : sub.target_layer < 0)
    (hp : sub.is_paused = false) :
    (k, { sub with
        current_layer := SubscriptionManager.select_best_layer st k.1 (k.2.1, k.2.2) }) ∈
        (SubscriptionManager.process st).1.subscriptions ∧
      (SubscriptionManager.select_best_layer st k.1 (k.2.1, k.2.2) ≠ sub.current_layer →
        (k.1, k.2.1, sub.current_layer,
          SubscriptionManager.select_best_layer st k.1 (k.2.1, k.2.2)) ∈
          (SubscriptionManager.process st).2) ∧
      (∀ bw bw' : BandwidthInfo, bw.estimated_bps = bw'.estimated_bps →
        SubscriptionManager.select_best_layer
            (SubscriptionManager.update_bandwidth st k.1 bw) k.1 (k.2.1, k.2.2) =
          SubscriptionManager.select_best_layer
            (SubscriptionManager.update_bandwidth st k.1 bw') k.1 (k.2.1, k.2.2)) := by
  have hle : ¬ (0 ≤ sub.target_layer) := by omega
  have hmap : (SubscriptionManager.process st).1.subscriptions =
      st.subscriptions.map (fun e =>
        if e.2.is_paused = true ∨ 0 ≤ e.2.target_layer then e
        else if SubscriptionManager.select_best_layer st e.1.1 (e.1.2.1, e.1.2.2) ≠
            e.2.current_layer then
          (e.1, { e.2 with
            current_layer := SubscriptionManager.select_best_layer st e.1.1 (e.1.2.1, e.1.2.2) })
        else e) := by
    simp [SubscriptionManager.process, process_foldl_spec]
  have hev : (SubscriptionManager.process st).2 =
      st.subscriptions.filterMap (fun e =>
        if e.2.is_paused = false ∧ e.2.target_layer < 0 ∧
            SubscriptionManager.select_best_layer st e.1.1 (e.1.2.1, e.1.2.2) ≠
              e.2.current_layer then
          some (e.1.1, e.1.2.1, e.2.current_layer,
            SubscriptionManager.select_best_layer st e.1.1 (e.1.2.1, e.1.2.2))
        else none) := by
    simp [SubscriptionManager.process, process_foldl_spec]
  refine ⟨?_, ?_, ?_⟩
  · rw [hmap]
    by_cases hb : SubscriptionManager.select_best_layer st k.1 (k.2.1, k.2.2) =
        sub.current_layer
    · have heta : ({ sub with
          current_layer := SubscriptionManager.select_best_layer st k.1 (k.2.1, k.2.2) } :
            Subscription) = sub := by
        rw [hb]
      rw [heta]
      exact List.mem_map.mpr ⟨(k, sub), hmem, by simp [hp, hle, hb]⟩
    · exact List.mem_map.mpr ⟨(k, sub), hmem, by simp [hp, hle, hb]⟩
  · intro hne
    rw [hev]
    exact List.mem_filterMap.mpr ⟨(k, sub), hmem, by simp [hp, hauto, hne]⟩
  · intro bw bw' hbps
    simp [SubscriptionManager.select_best_layer, SubscriptionManager.update_bandwidth,
      afind_aset_self, hbps]

/-- C4 witness: the concrete two-layer subscription of the counterexample
scenario under a 500 kbps estimate: one process() call immediately stores
layer 1. -/
theorem process_no_hysteresis_witness :
    (("S", "P", "v"),
        ({ publisher_id := "P", stream_id := "v", target_layer := -1, current_layer := 1,
           is_paused := false, bytes_received := 0 } : Subscription)) ∈
      (SubscriptionManager.process
        (SubscriptionManager.update_bandwidth
          (SubscriptionManager.set_available_layers
            (SubscriptionManager.subscribe SubscriptionManager.init "S" "P" "v" (-1)) "P" "v"
            [{ layer_index := 0, width := 320, height := 180, fps := 15, bitrate_kbps := 150,
               is_active := true },
             { layer_index := 1, width := 640, height := 360, fps := 30, bitrate_kbps := 500,
               is_active := true }])
          "S" { estimated_bps := 500000 })).1.subscriptions :=
  (process_no_hysteresis _ ("S", "P", "v")
    { publisher_id := "P", stream_id := "v", target_layer := -1, current_layer := 2,
      is_paused := false, bytes_received := 0 }
    (by decide) (by decide) (by decide)).1

/-! ## C5: frame completeness and reassembly -/

theorem gapScan_iff (packets : List (ℕ × List ℕ)) (last : ℕ) (hlast : last < 65535) :
    ∀ (fuel seq : ℕ), seq < 65536 →
      (last + 1 + 65536 - seq) % 65536 < fuel →
      (FrameAssembler.gapScan packets last seq fuel = true ↔
        ∀ k, k < (last + 1 + 65536 - seq) % 65536 →
          (afind ((seq + k) % 65536) packets).isSome = true) := by
  intro fuel
  induction fuel with
  | zero =>
    intro seq hseq hdist
    exact absurd hdist (by omega)
  | succ n ih =>
    intro seq hseq hdist
    by_cases hstop : seq = last + 1
    · have hd0 : (last + 1 + 65536 - seq) % 65536 = 0 := by omega
      have hg : FrameAssembler.gapScan packets last seq (n + 1) = true := by
        simp [FrameAssembler.gapScan, hstop]
      rw [hg, hd0]
      constructor
      · intro _ k hk
        exact absurd hk (by omega)
      · intro _
        rfl
    · have hdpos : 0 < (last + 1 + 65536 - seq) % 65536 := by omega
      by_cases hsome : (afind seq packets).isSome = true
      · have hg : FrameAssembler.gapScan packets last seq (n + 1) =
            FrameAssembler.gapScan packets last ((seq + 1) % 65536) n := by
          simp [FrameAssembler.gapScan, hstop, hsome]
        have hd' : (last + 1 + 65536 - (seq + 1) % 65536) % 65536 =
            (last + 1 + 65536 - seq) % 65536 - 1 := by omega
        have ihh := ih ((seq + 1) % 65536) (by omega) (by omega)
        rw [hg, ihh, hd']
        constructor
        · intro h k hk
          cases k with
          | zero =>
            have e : (seq + 0) % 65536 = seq := by omega
            rw [e]
            exact hsome
          | succ k' =>
            have hh := h k' (by omega)
            rw [Nat.mod_add_mod] at hh
            have e : seq + 1 + k' = seq + (k' + 1) := by omega
            rw [e] at hh
            exact hh
        · intro h k' hk'
          have hh := h (k' + 1) (by omega)
          rw [Nat.mod_add_mod]
          have e : seq + 1 + k' = seq + (k' + 1) := by omega
          rw [e]
          exact hh
      · have hg : FrameAssembler.gapScan packets last seq (n + 1) = false := by
          simp [FrameAssembler.gapScan, hstop, hsome]
        rw [hg]
        constructor
        · intro h
          exact Bool.noConfusion h
        · intro h
          have hh := h 0 hdpos
          have e : (seq + 0) % 65536 = seq := by omega
          rw [e] at hh
          exact absurd hh hsome

theorem gapScan_top (packets : List (ℕ × List ℕ)) :
    ∀ (fuel seq : ℕ), seq < 65536 → FrameAssembler.gapScan packets 65535 seq fuel = false := by
  intro fuel
  induction fuel with
  | zero =>
    intro seq hseq
    rfl
  | succ n ih =>
    intro seq hseq
    have hstop : ¬ seq = 65535 + 1 := by omega
    by_cases hsome : (afind seq packets).isSome = true
    · have hr := ih ((seq + 1) % 65536) (by omega)
      simp [FrameAssembler.gapScan, hstop, hsome, hr]
    · simp [FrameAssembler.gapScan, hstop, hsome]

theorem is_complete_iff (a : FrameAssembler) (hf : a.first_sequence < 65536)
    (hl : a.last_sequence < 65535) :
    FrameAssembler.is_complete a = true ↔
      a.has_first = true ∧ a.has_last = true ∧
        ∀ k, k < (a.last_sequence + 1 + 65536 - a.first_sequence) % 65536 →
          (afind ((a.first_sequence + k) % 65536) a.packets).isSome = true := by
  unfold FrameAssembler.is_complete
  by_cases h : a.has_first = false ∨ a.has_last = false
  · rw [if_pos h]
    constructor
    · intro hfalse
      exact Bool.noConfusion hfalse
    · rintro ⟨h1, h2, -⟩
      rcases h with h3 | h3
      · rw [h1] at h3
        exact Bool.noConfusion h3
      · rw [h2] at h3
        exact Bool.noConfusion h3
  · rw [if_neg h]
    rcases not_or.mp h with ⟨h1, h2⟩
    have h1t : a.has_first = true := by
      cases hb : a.has_first
      · exact absurd hb h1
      · rfl
    have h2t : a.has_last = true := by
      cases hb : a.has_last
      · exact absurd hb h2
      · rfl
    rw [gapScan_iff a.packets a.last_sequence hl 65536 a.first_sequence hf (by omega)]
    simp [h1t, h2t]

theorem is_complete_top (a : FrameAssembler) (hf : a.first_sequence < 65536)
    (hl : a.last_sequence = 65535) : FrameAssembler.is_complete a = false := by
  unfold FrameAssembler.is_complete
  by_cases h : a.has_first = false ∨ a.has_last = false
  · rw [if_pos h]
  · rw [if_neg h, hl]
    exact gapScan_top a.packets 65536 a.first_sequence hf

theorem concatScan_eq (packets : List (ℕ × List ℕ)) (last : ℕ) (hlast : last < 65536) :
    ∀ (fuel seq : ℕ), seq < 65536 →
      (last + 65536 - seq) % 65536 + 1 ≤ fuel →
      FrameAssembler.concatScan packets last seq fuel =
        ((List.range ((last + 65536 - seq) % 65536 + 1)).map
          (fun k => (afind ((seq + k) % 65536) packets).getD [])).flatten := by
  intro fuel
  induction fuel with
  | zero =>
    intro seq hseq hdist
    exact absurd hdist (by omega)
  | succ n ih =>
    intro seq hseq hdist
    by_cases hstop : seq = last
    · have hd0 : (last + 65536 - seq) % 65536 = 0 := by omega
      have hg : FrameAssembler.concatScan packets last seq (n + 1) =
          (afind seq packets).getD [] := by
        simp [FrameAssembler.concatScan, hstop]
      rw [hg, hd0]
      simp [List.range_succ, Nat.mod_eq_of_lt hseq]
    · have hdpos : 0 < (last + 65536 - seq) % 65536 := by omega
      have hd' : (last + 65536 - (seq + 1) % 65536) % 65536 =
          (last + 65536 - seq) % 65536 - 1 := by omega
      have hg : FrameAssembler.concatScan packets last seq (n + 1) =
          (afind seq packets).getD [] ++
            FrameAssembler.concatScan packets last ((seq + 1) % 65536) n := by
        simp [FrameAssembler.concatScan, hstop]
      rw [hg, ih ((seq + 1) % 65536) (by omega) (by omega), hd']
      have e2 : (last + 65536 - seq) % 65536 - 1 + 1 = (last + 65536 - seq) % 65536 := by
        omega
      rw [e2, List.range_succ_eq_map]
      have hmapeq : List.map
            (fun k => (afind (((seq + 1) % 65536 + k) % 65536) packets).getD [])
            (List.range ((last + 65536 - seq) % 65536)) =
          List.map ((fun k => (afind ((seq + k) % 65536) packets).getD []) ∘ Nat.succ)
            (List.range ((last + 65536 - seq) % 65536)) := by
        apply List.map_congr_left
        intro k _
        simp only [Function.comp, Nat.succ_eq_add_one]
        rw [Nat.mod_add_mod]
        have e4 : seq + 1 + k = seq + (k + 1) := by omega
        rw [e4]
      simp only [List.map_cons, List.flatten_cons, List.map_map, Nat.add_zero,
        Nat.mod_eq_of_lt hseq, hmapeq]

theorem assemble_data (a : FrameAssembler) (hf : a.first_sequence < 65536)
    (hl : a.last_sequence < 65536) :
    (FrameAssembler.assemble a).data =
      ((List.range ((a.last_sequence + 65536 - a.first_sequence) % 65536 + 1)).map
        (fun k => (afind ((a.first_sequence + k) % 65536) a.packets).getD [])).flatten := by
  unfold FrameAssembler.assemble
  exact concatScan_eq a.packets a.last_sequence hl 65536 a.first_sequence hf (by omega)

theorem cleanup_assembler_some (st : FrameBufferS) (now : ℕ) (a : FrameAssembler)
    (h : (FrameBuffer.cleanup_old_frames st now).assembler = some a) :
    st.assembler = some a := by
  unfold FrameBuffer.cleanup_old_frames at h
  cases hsa : st.assembler with
  | none =>
    simp only [hsa] at h
    exact h
  | some b =>
    simp only [hsa] at h
    by_cases hage : st.config.max_delay * 2 < now - b.first_arrival
    · rw [if_pos hage] at h
      exact Option.noConfusion h
    · rw [if_neg hage] at h
      exact h

theorem updateAssembler_packets (a0 : FrameAssembler) (now : ℕ) (data : List ℕ)
    (seq timestamp : ℕ) (marker kf : Bool) :
    (FrameBuffer.updateAssembler a0 now data seq timestamp marker kf).packets =
      aset seq data a0.packets := by
  unfold FrameBuffer.updateAssembler
  dsimp only
  repeat' split
  all_goals rfl

theorem insert_packet_stores (st : FrameBufferS) (now : ℕ) (data : List ℕ)
    (sequence timestamp : ℕ) (marker kf : Bool) (a : FrameAssembler)
    (h : (FrameBuffer.insert_packet st now data sequence timestamp marker kf).assembler =
      some a) :
    afind (sequence % 65536) a.packets = some data := by
  unfold FrameBuffer.insert_packet at h
  dsimp only at h
  split at h
  · split at h
    · have h2 : some (FrameBuffer.updateAssembler (st.assembler.getD {}) now data
          (sequence % 65536) timestamp marker kf) = some a := h
      injection h2 with h2
      rw [← h2, updateAssembler_packets]
      exact afind_aset_self _ _ _
    · have h2 := cleanup_assembler_some _ now a h
      have h3 : (none : Option FrameAssembler) = some a := h2
      exact Option.noConfusion h3
  · have h2 := cleanup_assembler_some _ now a h
    have h3 : some (FrameBuffer.updateAssembler (st.assembler.getD {}) now data
        (sequence % 65536) timestamp marker kf) = some a := h2
    injection h3 with h3
    rw [← h3, updateAssembler_packets]
    exact afind_aset_self _ _ _

/-- C5 counterexample: payloads [1], [3], [4], [2] are inserted for one
timestamp at sequences 10, 12 (marker), 13, 11.  The frame emitted by
pop_frame carries [1, 2, 3] — the concatenation over [first, last] =
[10, 12] — not the concatenation [1, 2, 3, 4] of all payloads inserted for
that timestamp (sequence 13, beyond the marker, is dropped). -/
theorem frame_reassembly_counterexample :
    let cfg : FrameBufferConfig :=
      { target_delay := 0, max_delay := 1000, wait_for_keyframe := false }
    let st4 := FrameBuffer.insert_packet
      (FrameBuffer.insert_packet
        (FrameBuffer.insert_packet
          (FrameBuffer.insert_packet (FrameBuffer.init cfg) 0 [1] 10 1000 false true)
          0 [3] 12 1000 true false)
        0 [4] 13 1000 false false)
      0 [2] 11 1000 false false
    ((FrameBuffer.pop_frame st4 0).1.map (fun f => f.data)) = some [1, 2, 3] ∧
      [1, 2, 3] ≠ [1, 2, 3, 4] := by
  exact ⟨by decide, by decide⟩

/-- C5 (amended): for a marker sequence other than 65535, a frame is
complete exactly when both the lowest sequence and the marker sequence are
known and every sequence number of the wrap-interval from first_seq through
last_seq (the (last+1-first) mod 2^16 offsets) has a stored payload; when
the marker sequence is 65535 no frame is ever reported complete (the loop's
exit test, computed after integral promotion, is unreachable: any missing
sequence yields false and a fully stored circle fails to terminate,
rendered false by the model); the assembled frame's bytes equal the
concatenation, in cyclic sequence order starting at first_seq, of the
stored payloads over that interval — the stored payload for a sequence
being the most recently inserted one, while payloads inserted with
sequences outside the interval (e.g. beyond the marker) are omitted;
pop_frame returns the front queued frame unchanged. -/
theorem frame_reassembly_spec (a : FrameAssembler) (st : FrameBufferS) (now : ℕ)
    (f : BufferedFrame) (st2 : FrameBufferS) (now2 : ℕ) (data : List ℕ)
    (sequence timestamp : ℕ) (marker kf : Bool) (a2 : FrameAssembler)
    (hf : a.first_sequence < 65536) (hl : a.last_sequence < 65536)
    (hpop : (FrameBuffer.pop_frame st now).1 = some f)
    (hins : (FrameBuffer.insert_packet st2 now2 data sequence timestamp marker kf).assembler =
      some a2) :
    (a.last_sequence < 65535 →
        (FrameAssembler.is_complete a = true ↔
          a.has_first = true ∧ a.has_last = true ∧
            ∀ k, k < (a.last_sequence + 1 + 65536 - a.first_sequence) % 65536 →
              (afind ((a.first_sequence + k) % 65536) a.packets).isSome = true)) ∧
      (a.last_sequence = 65535 → FrameAssembler.is_complete a = false) ∧
      (FrameAssembler.is_complete a = true →
        (FrameAssembler.assemble a).data =
          ((List.range ((a.last_sequence + 65536 - a.first_sequence) % 65536 + 1)).map
            (fun k => (afind ((a.first_sequence + k) % 65536) a.packets).getD [])).flatten) ∧
      st.complete_frames.head? = some f ∧
      afind (sequence % 65536) a2.packets = some data := by
  refine ⟨fun hlt => is_complete_iff a hf hlt, fun htop => is_complete_top a hf htop,
    fun _ => assemble_data a hf hl, ?_,
    insert_packet_stores st2 now2 data sequence timestamp marker kf a2 hins⟩
  unfold FrameBuffer.pop_frame at hpop
  cases hcf : st.complete_frames with
  | nil =>
    rw [hcf] at hpop
    exact Option.noConfusion hpop
  | cons g rest =>
    rw [hcf] at hpop
    dsimp only at hpop
    by_cases hage : now - g.arrival_time < st.config.target_delay
    · rw [if_pos hage] at hpop
      exact Option.noConfusion hpop
    · rw [if_neg hage] at hpop
      simp only at hpop
      injection hpop with hpop
      rw [List.head?_cons, hpop]

/-- C5 witness: the complete 10..12 assembler satisfies the completeness
characterization; its frame sits at the front of the queue and pop_frame
returns it; a fresh insert at sequence 5 stores its payload. -/
theorem frame_reassembly_spec_witness :
    (frameAsmW.last_sequence < 65535 →
        (FrameAssembler.is_complete frameAsmW = true ↔
          frameAsmW.has_first = true ∧ frameAsmW.has_last = true ∧
            ∀ k,
              k < (frameAsmW.last_sequence + 1 + 65536 - frameAsmW.first_sequence) % 65536 →
              (afind ((frameAsmW.first_sequence + k) % 65536) frameAsmW.packets).isSome =
                true)) ∧
      (frameAsmW.last_sequence = 65535 → FrameAssembler.is_complete frameAsmW = false) ∧
      (FrameAssembler.is_complete frameAsmW = true →
        (FrameAssembler.assemble frameAsmW).data =
          ((List.range
              ((frameAsmW.last_sequence + 65536 - frameAsmW.first_sequence) % 65536 + 1)).map
            (fun k =>
              (afind ((frameAsmW.first_sequence + k) % 65536) frameAsmW.packets).getD
                [])).flatten) ∧
      frameStW.complete_frames.head? = some frameAsmW.assemble ∧
      afind (5 % 65536)
          ((FrameBuffer.insert_packet frameStW 0 [9] 5 2000 false
              false).assembler.getD {}).packets =
        some [9] :=
  frame_reassembly_spec frameAsmW frameStW 0 frameAsmW.assemble frameStW 0 [9] 5 2000 false
    false ((FrameBuffer.insert_packet frameStW 0 [9] 5 2000 false false).assembler.getD {})
    (by decide) (by decide) (by decide) (by decide)

/-! ## C6: pacer token-bucket conservation -/

theorem drain_conservation (q : List PacedPacket) (tokens : ℕ) :
    totalBytes (RtpPacer.drain q tokens).1 + (RtpPacer.drain q tokens).2.2 = tokens := by
  induction q generalizing tokens with
  | nil => simp [RtpPacer.drain, totalBytes]
  | cons p rest ih =>
    by_cases hfit : tokens < p.data.length
    · simp [RtpPacer.drain, hfit, totalBytes]
    · have hle : p.data.length ≤ tokens := by omega
      have hrec := ih (tokens - p.data.length)
      simp only [RtpPacer.drain, if_neg hfit, totalBytes, List.map_cons, List.sum_cons] at *
      omega

theorem enqueue_preserves (st : PacerState) (d : List ℕ) (dest : String × ℕ) (pr : ℤ) :
    (RtpPacer.enqueue st d dest pr).2.available_tokens = st.available_tokens ∧
      (RtpPacer.enqueue st d dest pr).2.config = st.config := by
  unfold RtpPacer.enqueue
  split
  · exact ⟨rfl, rfl⟩
  · exact ⟨rfl, rfl⟩

theorem runPacer_bound (B : ℕ) :
    ∀ (ops : List PacerOp) (st : PacerState), st.config.target_bitrate_bps = B →
      totalBytes (runPacer st ops).2 ≤ st.available_tokens + sumNewTokens B ops := by
  intro ops
  induction ops with
  | nil =>
    intro st hB
    simp [runPacer, totalBytes, sumNewTokens]
  | cons op rest ih =>
    intro st hB
    cases op with
    | enq d dest pr =>
      have hpre := enqueue_preserves st d dest pr
      have hih := ih (RtpPacer.enqueue st d dest pr).2 (by rw [hpre.2, hB])
      rw [hpre.1] at hih
      simpa [runPacer, sumNewTokens] using hih
    | proc e =>
      have hconf : (RtpPacer.process st e).2.config = st.config := rfl
      have hih := ih (RtpPacer.process st e).2 (by rw [hconf, hB])
      have hdrain := drain_conservation st.queue
        (min (st.available_tokens + st.config.target_bitrate_bps / 8 * e / 1000)
          st.config.bucket_size_bytes)
      have htok : (RtpPacer.process st e).2.available_tokens =
          (RtpPacer.drain st.queue
            (min (st.available_tokens + st.config.target_bitrate_bps / 8 * e / 1000)
              st.config.bucket_size_bytes)).2.2 := rfl
      have hsent : (RtpPacer.process st e).1 =
          (RtpPacer.drain st.queue
            (min (st.available_tokens + st.config.target_bitrate_bps / 8 * e / 1000)
              st.config.bucket_size_bytes)).1 := rfl
      have hrun : (runPacer st (PacerOp.proc e :: rest)).2 =
          (RtpPacer.process st e).1 ++ (runPacer (RtpPacer.process st e).2 rest).2 := rfl
      have happ : totalBytes
          ((RtpPacer.process st e).1 ++ (runPacer (RtpPacer.process st e).2 rest).2) =
          totalBytes (RtpPacer.process st e).1 +
            totalBytes (runPacer (RtpPacer.process st e).2 rest).2 := by
        simp [totalBytes]
      have hmin : min (st.available_tokens + st.config.target_bitrate_bps / 8 * e / 1000)
          st.config.bucket_size_bytes ≤
          st.available_tokens + st.config.target_bitrate_bps / 8 * e / 1000 :=
        min_le_left _ _
      rw [htok] at hih
      rw [hrun, happ, hsent]
      simp only [sumNewTokens]
      rw [hB] at hdrain hih hmin ⊢
      omega

theorem sumNewTokens_le (B : ℕ) (ops : List PacerOp) :
    sumNewTokens B ops ≤ B / 8 * elapsedTotal ops / 1000 := by
  induction ops with
  | nil => simp [sumNewTokens, elapsedTotal]
  | cons op rest ih =>
    cases op with
    | enq d dest pr => simpa [sumNewTokens, elapsedTotal] using ih
    | proc e =>
      simp only [sumNewTokens, elapsedTotal]
      have hdistrib : B / 8 * (e + elapsedTotal rest) =
          B / 8 * e + B / 8 * elapsedTotal rest := by ring
      rw [hdistrib]
      omega

/-- C6: over any trace of enqueue and process calls whose process-side
elapsed time spans at most w seconds, the total bytes handed to the send
callback are bounded by bucket_size_bytes + (target_bitrate_bps / 8) * w;
each process refills (target_bitrate_bps / 8) * elapsed_ms / 1000 tokens
clamped to the bucket size and emits queued packets while the top fits the
balance, stopping at the first that does not. -/
theorem pacer_conservation (cfg : PacerConfig) (ops : List PacerOp) (w : ℕ)
    (hw : elapsedTotal ops ≤ 1000 * w) :
    totalBytes (runPacer (RtpPacer.init cfg) ops).2 ≤
      cfg.bucket_size_bytes + cfg.target_bitrate_bps / 8 * w := by
  have h1 := runPacer_bound cfg.target_bitrate_bps ops (RtpPacer.init cfg) rfl
  have h2 := sumNewTokens_le cfg.target_bitrate_bps ops
  have h3 : cfg.target_bitrate_bps / 8 * elapsedTotal ops ≤
      1000 * (cfg.target_bitrate_bps / 8 * w) := by
    calc cfg.target_bitrate_bps / 8 * elapsedTotal ops ≤
        cfg.target_bitrate_bps / 8 * (1000 * w) := Nat.mul_le_mul_left _ hw
      _ = 1000 * (cfg.target_bitrate_bps / 8 * w) := by ring
  have h4 : cfg.target_bitrate_bps / 8 * elapsedTotal ops / 1000 ≤
      cfg.target_bitrate_bps / 8 * w := by
    have h5 : cfg.target_bitrate_bps / 8 * elapsedTotal ops / 1000 ≤
        1000 * (cfg.target_bitrate_bps / 8 * w) / 1000 := Nat.div_le_div_right h3
    rwa [Nat.mul_div_cancel_left _ (by norm_num)] at h5
  have hinit : (RtpPacer.init cfg).available_tokens = cfg.bucket_size_bytes := rfl
  rw [hinit] at h1
  omega

/-- C6 witness: an 800 kbps pacer with a 3000-byte bucket, one 200-byte
enqueue and one 10 ms process tick stays within the 1-second budget. -/
theorem pacer_conservation_witness :
    totalBytes (runPacer (RtpPacer.init pacerCfgW)
        [PacerOp.enq (List.replicate 200 0) ("10.0.0.2", 5000) 1, PacerOp.proc 10]).2 ≤
      pacerCfgW.bucket_size_bytes + pacerCfgW.target_bitrate_bps / 8 * 1 :=
  pacer_conservation pacerCfgW
    [PacerOp.enq (List.replicate 200 0) ("10.0.0.2", 5000) 1, PacerOp.proc 10] 1 (by decide)

/-! ## C7: ICE candidate-pair priority -/

/-- C7 counterexample: a controlling agent with one local candidate of
priority 1 pairing a remote candidate of priority 2 stores pair priority
(1 << 32) + 2, while the claimed RFC formula with G = 1, D = 2 yields
(1 << 32) + 4. -/
theorem pair_priority_counterexample :
    let st : IceAgentState :=
      { role := IceRole.controlling
        local_candidates := [{ foundation := "1", component := 1, protocol := "udp",
                               priority := 1, address := ("10.0.0.1", 5000),
                               cand_type := IceCandidateType.host }]
        remote_candidates := [], candidate_pairs := [] }
    ((IceAgent.add_remote_candidate st { priority := 2 }).candidate_pairs.map
        (fun p => p.priority)) = [2 ^ 32 + 2] ∧
      IceAgent.specPairPriority 1 2 = 2 ^ 32 + 4 ∧ ¬ (2 ^ 32 + 2 : ℕ) = 2 ^ 32 + 4 := by
  refine ⟨?_, ?_, ?_⟩ <;> decide

/-- C7 (amended): every pair formed by add_remote_candidate carries the
stored remote candidate, a local candidate of the agent, and priority equal
to the controlling side's candidate priority shifted left 32 bits plus the
controlled side's candidate priority (the RFC min/max/tie-bit formula is not
used). -/
theorem pair_priority_formed (st : IceAgentState) (c : IceCandidate) (p : IceCandidatePair)
    (hp : p ∈ (IceAgent.add_remote_candidate st c).candidate_pairs)
    (hnew : p ∉ st.candidate_pairs) :
    p.remote_cand = c ∧ p.local_cand ∈ st.local_candidates ∧ p.state = PairState.frozen ∧
      (st.role = IceRole.controlling → p.priority = p.local_cand.priority * 2 ^ 32 + c.priority) ∧
      (st.role = IceRole.controlled → p.priority = c.priority * 2 ^ 32 + p.local_cand.priority) := by
  simp only [IceAgent.add_remote_candidate, List.mem_append] at hp
  rcases hp with hp | hp
  · exact absurd hp hnew
  · rcases List.mem_map.mp hp with ⟨l, hl, rfl⟩
    refine ⟨rfl, hl, rfl, ?_, ?_⟩
    · intro hrole
      simp [IceAgent.pairPriority, hrole]
    · intro hrole
      have : ¬ st.role = IceRole.controlling := by
        rw [hrole]
        intro h
        cases h
      simp [IceAgent.pairPriority, this]

/-- C7 witness: the controlled agent with local priority 3 pairs a remote
candidate of priority 7 into priority (7 << 32) + 3. -/
theorem pair_priority_formed_witness : icePairW.priority = 7 * 2 ^ 32 + 3 :=
  (pair_priority_formed iceAgentW { priority := 7 } icePairW (by decide)
    (by decide)).2.2.2.2 rfl

/-! ## C8: STUN packet demultiplexing -/

/-- C8 counterexample: a 20-byte all-zero packet has no RFC magic cookie at
offsets 4..7, yet the agent classifies it as STUN and does not deliver it via
on_data. -/
theorem stun_demux_counterexample :
    IceAgent.stunClassified (List.replicate 20 0) = true ∧
      ¬ IceAgent.specIsStun (List.replicate 20 0) ∧
      (IceAgent.process_packet
          { role := IceRole.controlling, local_candidates := [], remote_candidates := [],
            candidate_pairs := [] }
          (List.replicate 20 0)).2 = none := by
  refine ⟨?_, ?_, ?_⟩ <;> decide

/-- C8 (amended): a packet is treated as STUN (no on_data delivery, check
counter bumped) precisely when it is at least 20 bytes long and the two
leading bits of its first byte are 00; the magic cookie is not inspected;
every other packet is delivered unchanged via on_data with the agent state
untouched. -/
theorem stun_demux_spec (st : IceAgentState) (data : List ℕ) :
    ((IceAgent.process_packet st data).2 = none ↔
        20 ≤ data.length ∧ Nat.land (data.headD 0) 192 = 0) ∧
      ((IceAgent.process_packet st data).2 = none →
        (IceAgent.process_packet st data).1.connectivity_checks_received =
          st.connectivity_checks_received + 1) ∧
      ((IceAgent.process_packet st data).2 ≠ none →
        IceAgent.process_packet st data = (st, some data)) := by
  by_cases h : IceAgent.stunClassified data = true
  · have hc : 20 ≤ data.length ∧ Nat.land (data.headD 0) 192 = 0 := by
      have h2 := h
      simp only [IceAgent.stunClassified, Bool.and_eq_true, decide_eq_true_eq] at h2
      exact h2
    have hpp : IceAgent.process_packet st data =
        ({ st with connectivity_checks_received := st.connectivity_checks_received + 1 },
         none) := by
      simp [IceAgent.process_packet, h]
    refine ⟨?_, ?_, ?_⟩
    · rw [hpp]
      simpa using hc
    · intro _
      rw [hpp]
    · intro hne
      rw [hpp] at hne
      simp at hne
  · have hc : ¬ (20 ≤ data.length ∧ Nat.land (data.headD 0) 192 = 0) := by
      intro hcc
      exact h (by simp only [IceAgent.stunClassified, Bool.and_eq_true, decide_eq_true_eq]
                  exact hcc)
    have hpp : IceAgent.process_packet st data = (st, some data) := by
      simp [IceAgent.process_packet, h]
    refine ⟨?_, ?_, ?_⟩
    · rw [hpp]
      simpa using hc
    · intro hnone
      rw [hpp] at hnone
      simp at hnone
    · intro _
      exact hpp

/-- C8 witness: a one-byte packet with leading bits 10 is delivered via
on_data with the agent state untouched. -/
theorem stun_demux_spec_witness :
    IceAgent.process_packet iceAgentW [170] = (iceAgentW, some [170]) :=
  (stun_demux_spec iceAgentW [170]).2.2 (by decide)

/-- C10 witness: a concrete forwarder with one publisher (SSRC 5) and one
subscription; removing a subscription for a subscriber with no rule still
drops the count from 1 to 0. -/
theorem remove_subscription_spec_witness :
    (remove_subscription
        (add_subscription
          (add_publisher (ForwarderState.init true) "P" "v"
            { ssrc := 5, payload_type := 96, simulcast_layer := -1 })
          "P" "X"
          { subscriber_id := "", destination := ("10.0.0.9", 4000), rewritten_ssrc := 0,
            preferred_simulcast_layer := -1, is_active := true })
        "P" "Y").stats.active_subscribers = 0 :=
  ((remove_subscription_spec _ "P" "Y").2 [5] (by decide)).2 (by decide) (by decide)

end RtcSpec
